import Mathlib

set_option maxRecDepth 10000

/-!
# Verification of the notepad2 regex engine and SQL lexer/folder

Shallow embedding, translated from the C++ sources:
* `RESearch.cxx` (pattern compiler `DoCompile`/`Compile`, matcher
  `PMatch`/`Execute`) — the Ozan Yigit / Scintilla regular-expression engine;
* `LexSQL.cxx` (`ColouriseSqlDoc`, `SQLStates`, `FoldSqlDoc`).

Conventions used throughout:
* bytes are `Nat` values `< 256`; text buffers are `List Nat`;
* C `NOTFOUND` is `(-1 : Int)`, positions are `Int`;
* the `CharacterIndexer` host interface is instantiated with a plain byte
  buffer: `CharAt i` reads the buffer (0 beyond its end),
  `MovePositionOutsideChar` is the identity and `NextPosition p d = p + d`,
  which is the host behaviour for single-byte encodings;
* the word-class table (`iswordc`, owned by the host `CharClassify`) is an
  explicit function parameter `isw : Nat → Bool`;
* backtracking in `PMatch` is bounded by an explicit `fuel : Nat`; running
  out of fuel yields the same observable as `NOTFOUND`, and every theorem
  states explicitly how much fuel it needs.
-/

namespace NP2

/-! ## SQLStates (LexSQL.cxx)

`SQLStates::Set` stores a per-line fold-state word into a growable
`std::vector<unsigned short>`.  The guard is written
`!sqlStatement.size() == 0 || !sqlStatesLine == 0`, which with C precedence
parses as `(!size()) == 0 || (!state) == 0`, i.e. `size() != 0 || state != 0`.
`resize(lineNumber + 1, 0)` truncates or zero-extends to exactly
`lineNumber + 1` entries. -/

/-- C logical negation on an integer value: `!x` is 1 when `x = 0`, else 0. -/
def cNot (n : Nat) : Nat := if n = 0 then 1 else 0

/-- `std::vector::resize(n, 0)`: truncate to `n` elements or pad with zeros. -/
def vecResize (v : List Nat) (n : Nat) : List Nat :=
  if n ≤ v.length then v.take n else v ++ List.replicate (n - v.length) 0

/-- `SQLStates::Set(lineNumber, sqlStatesLine)` translated literally: the
guard is `(!size()) == 0 || (!state) == 0`, then `resize(lineNumber+1, 0)`
followed by `v[lineNumber] = state`. -/
def sqlStatesSet (v : List Nat) (lineNumber : Nat) (sqlStatesLine : Nat) : List Nat :=
  if cNot v.length = 0 ∨ cNot sqlStatesLine = 0 then
    (vecResize v (lineNumber + 1)).set lineNumber sqlStatesLine
  else v

/-- `SQLStates::ForLine(lineNumber)`. -/
def sqlStatesForLine (v : List Nat) (lineNumber : Nat) : Nat :=
  if 0 < lineNumber ∧ lineNumber < v.length then v.getD lineNumber 0 else 0

/-! ## Regex engine (RESearch.cxx)

The NFA program.  In the C source a program is a flat byte array; every
manipulation the compiler and matcher perform (append, insert at the saved
`sp`/`lp` opcode boundary, copy of the last atom, skip by
`ANYSKIP`/`CHRSKIP`/`CCLSKIP`) happens on whole instructions, so the
embedding uses a list of structured instructions.  `stop` models the `END`
opcode; a `CCL` 32-byte bitset is a 256-bit `Nat`.  Byte sizes are kept for
the `MAXNFA` length check. -/

inductive Instr where
  | chr (c : Nat)
  | any
  | ccl (bits : Nat)
  | bol
  | eol
  | bot (n : Nat)
  | eot (n : Nat)
  | bow
  | eow
  | ref (n : Nat)
  | clo
  | clq
  | lclo
  | mws      -- EXP_MATCH_WORD_START
  | mwe      -- EXP_MATCH_WORD_END
  | mtwe     -- EXP_MATCH_TO_WORD_END
  | mtweOpt  -- EXP_MATCH_TO_WORD_END_OPT
  | stop     -- END
deriving DecidableEq, Repr

/-- Byte footprint of one instruction in the C `nfa` buffer. -/
def instrSize : Instr → Nat
  | .chr _ => 2
  | .ccl _ => 33
  | .bot _ => 2
  | .eot _ => 2
  | .ref _ => 2
  | _ => 1

/-- Byte position of the write pointer `mp` after emitting `prog`. -/
def progSize (prog : List Instr) : Nat := (prog.map instrSize).sum

def MAXNFA : Nat := 2048
def MAXTAG : Nat := 10
def BITBLK : Nat := 32
def MAXCHR : Nat := 256

/-- `mpMax = mp + MAXNFA - BITBLK - 10` bound on the write pointer. -/
def mpMax : Nat := MAXNFA - BITBLK - 10

/-- All 256 bits set: the result of XORing every bitset byte with `0xFF`. -/
def allBits : Nat := 2 ^ 256 - 1

/-- `RESearch::ChSet`: set the bit of (unsigned char) `c`. -/
def chSet (bits : Nat) (c : Nat) : Nat := bits ||| (1 <<< (c % 256))

/-- `RESearch::ChSetWithCase`. -/
def chSetWithCase (bits : Nat) (c : Nat) (caseSensitive : Bool) : Nat :=
  let bits1 := chSet bits c
  if caseSensitive then bits1
  else if 97 ≤ c % 256 ∧ c % 256 ≤ 122 then chSet bits1 (c % 256 - 97 + 65)
  else if 65 ≤ c % 256 ∧ c % 256 ≤ 90 then chSet bits1 (c % 256 - 65 + 97)
  else bits1

/-- `isinset`: bit test in a CCL bitset. -/
def isinset (bits : Nat) (c : Nat) : Bool := bits.testBit (c % 256)

/-- `escapeValue` (RESearch.cxx): C escape letters to control bytes. -/
def escapeValue (ch : Nat) : Nat :=
  if ch = 97 then 7        -- \a
  else if ch = 98 then 8   -- \b
  else if ch = 102 then 12 -- \f
  else if ch = 110 then 10 -- \n
  else if ch = 114 then 13 -- \r
  else if ch = 116 then 9  -- \t
  else if ch = 118 then 11 -- \v
  else if ch = 101 then 27 -- \e
  else 0

/-- `GetHexDigit`. -/
def getHexDigit (ch : Nat) : Option Nat :=
  if 48 ≤ ch ∧ ch ≤ 57 then some (ch - 48)
  else if 97 ≤ (ch ||| 32) ∧ (ch ||| 32) ≤ 102 then some ((ch ||| 32) - 97 + 10)
  else none

/-- Add to `bits` every character `c < 256` satisfying `p` (the C loops
`for (int c = 0; c < MAXCHR; c++) if (p) ChSet(c)`). -/
def addClass (bits : Nat) (p : Nat → Bool) : Nat :=
  (List.range MAXCHR).foldl (fun s c => if p c then chSet s c else s) bits

/-- `RESearch::GetBackslashExpression`.  `bsc` is the char after the
backslash, `la1`/`la2` the two following bytes (0 at the terminator).
Returns (simple char or `none` for a class, updated bitset, chars to skip).
The C function returns `-1` for a character class, here `none`. -/
def getBackslashExpr (isw : Nat → Bool) (bsc la1 la2 : Nat) (bits : Nat) :
    Option Nat × Nat × Nat :=
  if bsc = 0 then (some 92, bits, 0)
  else if bsc = 97 ∨ bsc = 98 ∨ bsc = 110 ∨ bsc = 102 ∨ bsc = 114 ∨
          bsc = 116 ∨ bsc = 118 ∨ bsc = 101 then
    (some (escapeValue bsc), bits, 0)
  else if bsc = 120 then
    match getHexDigit la1, getHexDigit la2 with
    | some d1, some d2 => (some (16 * d1 + d2), bits, 2)
    | _, _ => (some 120, bits, 0)
  else if bsc = 100 then (none, addClass bits (fun c => 48 ≤ c ∧ c ≤ 57), 0)
  else if bsc = 68 then (none, addClass bits (fun c => c < 48 ∨ 57 < c), 0)
  else if bsc = 115 then
    (none, chSet (chSet (chSet (chSet (chSet (chSet bits 32) 9) 10) 13) 12) 11, 0)
  else if bsc = 83 then
    (none, addClass bits (fun c => c ≠ 32 ∧ ¬(9 ≤ c ∧ c ≤ 13)), 0)
  else if bsc = 119 then (none, addClass bits (fun c => isw c), 0)
  else if bsc = 87 then (none, addClass bits (fun c => ¬ isw c), 0)
  else (some bsc, bits, 0)

/-- Fill characters `c1 .. c2` (inclusive) into the set, with case mirrors:
the `while (c1 <= c2) ChSetWithCase(c1++)` loop. -/
def fillRange (bits : Nat) (c1 c2 : Nat) (caseSensitive : Bool) : Nat :=
  (List.range' c1 (c2 + 1 - c1)).foldl
    (fun s c => chSetWithCase s (c % 256) caseSensitive) bits

/-- The scanning loop of the `[...]` case of `DoCompile`, starting after the
optional leading `^`, `-`, `]` have been handled.  Input is the remaining
pattern (the C code sees a NUL terminator where the list ends; an embedded
0 byte behaves the same).  Returns the accumulated bitset and the pattern
remaining after the closing `]`.  `fuel` bounds the recursion; one unit per
consumed character always suffices. -/
def cclScan (isw : Nat → Bool) (caseSensitive : Bool) :
    Nat → List Nat → Nat → Int → Except String (Nat × List Nat)
  | 0, _, _, _ => .error "recursion budget exhausted"
  | _ + 1, [], _, _ => .error "Missing ]"
  | fuel + 1, c :: r, bits, prevChar =>
    if c = 0 then .error "Missing ]"
    else if c = 93 then .ok (bits, r)
    else if c = 45 then
      if prevChar < 0 then
        -- previous def. was a char class, take dash literally
        cclScan isw caseSensitive fuel r (chSet bits 45) 45
      else
        match r with
        | [] => .error "Missing ]"
        | c2 :: r2 =>
          if c2 = 0 then .error "Missing ]"
          else if c2 = 93 then
            -- dash before the ], take it literally
            cclScan isw caseSensitive fuel r (chSet bits 45) 45
          else if c2 = 92 then
            match r2 with
            | [] => .error "Missing ]"
            | e :: r3 =>
              if e = 0 then .error "Missing ]"
              else
                match getBackslashExpr isw e (r3.headD 0) ((r3.drop 1).headD 0) bits with
                | (some v, bits1, incr) =>
                  -- ChSet(c2) then fill prevChar+1 .. c2
                  let bits2 := fillRange (chSet bits1 v) (prevChar.toNat + 1) v caseSensitive
                  cclScan isw caseSensitive fuel (r3.drop incr) bits2 (Int.ofNat v)
                | (none, bits1, incr) =>
                  -- char after dash is a class, take dash literally
                  cclScan isw caseSensitive fuel (r3.drop incr) (chSet bits1 45) 45
          else
            let bits2 := fillRange bits (prevChar.toNat + 1) c2 caseSensitive
            cclScan isw caseSensitive fuel r2 bits2 prevChar
    else if c = 92 ∧ r.headD 0 ≠ 0 then
      match r with
      | [] => .error "Missing ]"   -- unreachable: headD 0 = 0 for []
      | e :: r2 =>
        match getBackslashExpr isw e (r2.headD 0) ((r2.drop 1).headD 0) bits with
        | (some v, bits1, incr) =>
          cclScan isw caseSensitive fuel (r2.drop incr) (chSet bits1 v) (Int.ofNat v)
        | (none, bits1, incr) =>
          cclScan isw caseSensitive fuel (r2.drop incr) bits1 (-1)
    else
      cclScan isw caseSensitive fuel r (chSetWithCase bits c caseSensitive) (Int.ofNat c)

/-- Result of the optional `^`, `-`, `]` prefix of a `[...]` class:
remaining pattern, initial bitset, `prevChar`, inversion mask. -/
structure CPre where
  rem : List Nat
  bits : Nat
  prev : Int
  mask : Bool

/-- The optional `^`, `-`, `]` prefix of a `[...]` class (DoCompile lines
just after `*mp++ = CCL`). -/
def cclPrelude (rest : List Nat) : CPre :=
  let (r1, mask) := match rest with
    | 94 :: r => (r, true)
    | _ => (rest, false)
  let (r2, bits2, prev2) := match r1 with
    | 45 :: r => (r, chSet 0 45, (45 : Int))
    | _ => (r1, 0, (0 : Int))
  match r2 with
  | 93 :: r => ⟨r, chSet bits2 93, 93, mask⟩
  | _ => ⟨r2, bits2, prev2, mask⟩

/-- The `Illegal closure` opcode set (`case BOL: case BOT: case EOT:
case BOW: case EOW: case REF:`). -/
def illegalClosureOp : Instr → Bool
  | .bol | .bot _ | .eot _ | .bow | .eow | .ref _ => true
  | _ => false

/-- Is the opcode a `BOT` (the `*sp == BOT` null-pattern tests)? -/
def isBotOp : Instr → Bool
  | .bot _ => true
  | _ => false

/-- Compiler state: the program built so far, the index of the most recent
instruction (C pointer `sp`), the open-tag stack (`tagstk[1..tagi]`, top
first), the tag counter `tagc`, and whether we are still at the first
pattern character (`p == pattern`). -/
structure CSt where
  prog : List Instr
  sp : Nat
  tagstk : List Nat
  tagc : Nat
  atStart : Bool

/-- Append one instruction; `sp` becomes the write position it was emitted
at (the `sp = lp` at the bottom of the compile loop). -/
def pushI (st : CSt) (ins : Instr) : CSt :=
  { st with prog := st.prog ++ [ins], sp := st.prog.length, atStart := false }

/-- The opcode at the saved pointer (`*sp` / `*lp`). -/
def lastOp (st : CSt) : Instr := st.prog.getD st.sp .stop

/-- The main scan loop of `RESearch::DoCompile`, one step per pattern
character.  Characters beyond the list behave as the NUL terminator.
`fuel` bounds the recursion; `length + 1` always suffices since every step
consumes at least one character. -/
def goC (isw : Nat → Bool) (caseSensitive posix : Bool) :
    Nat → List Nat → CSt → Except String (List Instr)
  | 0, _, _ => .error "recursion budget exhausted"
  | _ + 1, [], st =>
      if st.tagstk ≠ [] then .error (if posix then "Unmatched (" else "Unmatched \\(")
      else .ok (st.prog ++ [.stop])
  | fuel + 1, c :: rest, st =>
      if progSize st.prog > mpMax then .error "Pattern too long"
      else if c = 46 then            -- '.'  match any char
        goC isw caseSensitive posix fuel rest (pushI st .any)
      else if c = 94 then            -- '^'  match beginning
        goC isw caseSensitive posix fuel rest
          (pushI st (if st.atStart then .bol else .chr 94))
      else if c = 36 then            -- '$'  match end of line
        goC isw caseSensitive posix fuel rest
          (pushI st (if rest.headD 0 = 0 then .eol else .chr 36))
      else if c = 91 then            -- '['  char class
        match cclScan isw caseSensitive ((cclPrelude rest).rem.length + 1)
            (cclPrelude rest).rem (cclPrelude rest).bits (cclPrelude rest).prev with
        | .error e => .error e
        | .ok (bits, r1) =>
          goC isw caseSensitive posix fuel r1
            (pushI st (.ccl (if (cclPrelude rest).mask then bits ^^^ allBits else bits)))
      else if c = 42 ∨ c = 43 ∨ c = 63 then   -- '*' '+' '?' closures
        if st.atStart then .error "Empty closure"
        else if lastOp st = .clo ∨ lastOp st = .lclo then
          -- doubling a greedy/lazy closure: equivalence, skip
          goC isw caseSensitive posix fuel rest { st with atStart := false }
        else if illegalClosureOp (lastOp st) then .error "Illegal closure"
        else if c = 63 ∧ lastOp st = .mtwe then
          goC isw caseSensitive posix fuel rest
            { st with prog := st.prog.set st.sp .mtweOpt, atStart := false }
        else
          goC isw caseSensitive posix fuel rest
            { st with
              prog :=
                (if c = 43 then st.prog ++ st.prog.drop st.sp else st.prog).take
                    (if c = 43 then st.prog.length else st.sp) ++
                  [if c = 63 then Instr.clq
                   else if rest.headD 0 = 63 then Instr.lclo else Instr.clo] ++
                  (if c = 43 then st.prog ++ st.prog.drop st.sp else st.prog).drop
                    (if c = 43 then st.prog.length else st.sp) ++ [.stop],
              sp := if c = 43 then st.prog.length else st.sp,
              atStart := false }
      else if c = 92 then            -- '\': tags, backrefs, escapes
        if rest.headD 0 = 60 then
          goC isw caseSensitive posix fuel (rest.drop 1) (pushI st .bow)
        else if rest.headD 0 = 62 then
          if lastOp st = .bow then .error "Null pattern inside \\<\\>"
          else goC isw caseSensitive posix fuel (rest.drop 1) (pushI st .eow)
        else if rest.headD 0 = 104 then
          goC isw caseSensitive posix fuel (rest.drop 1) (pushI st .mws)
        else if rest.headD 0 = 72 then
          if lastOp st = .mws then .error "Null pattern inside \\h\\H"
          else goC isw caseSensitive posix fuel (rest.drop 1) (pushI st .mwe)
        else if rest.headD 0 = 105 then
          goC isw caseSensitive posix fuel (rest.drop 1) (pushI st .mtwe)
        else if 49 ≤ rest.headD 0 ∧ rest.headD 0 ≤ 57 then
          if st.tagstk ≠ [] ∧ st.tagstk.headD 0 = rest.headD 0 - 48 then
            .error "Cyclical reference"
          else if rest.headD 0 - 48 < st.tagc then
            goC isw caseSensitive posix fuel (rest.drop 1)
              (pushI st (.ref (rest.headD 0 - 48)))
          else .error "Undetermined reference"
        else if ¬posix ∧ rest.headD 0 = 40 then
          if st.tagc < MAXTAG then
            goC isw caseSensitive posix fuel (rest.drop 1)
              { pushI st (.bot st.tagc) with
                tagstk := st.tagc :: st.tagstk, tagc := st.tagc + 1 }
          else .error "Too many \\(\\) pairs"
        else if ¬posix ∧ rest.headD 0 = 41 then
          if isBotOp (lastOp st) then .error "Null pattern inside \\(\\)"
          else
            match st.tagstk with
            | t :: ts =>
              goC isw caseSensitive posix fuel (rest.drop 1)
                { pushI st (.eot t) with tagstk := ts }
            | [] => .error "Unmatched \\)"
        else
          match (getBackslashExpr isw (rest.headD 0) ((rest.drop 1).headD 0)
              ((rest.drop 2).headD 0) 0).1 with
          | some v =>
            goC isw caseSensitive posix fuel
              ((rest.drop 1).drop (getBackslashExpr isw (rest.headD 0)
                ((rest.drop 1).headD 0) ((rest.drop 2).headD 0) 0).2.2)
              (pushI st (.chr v))
          | none =>
            goC isw caseSensitive posix fuel
              ((rest.drop 1).drop (getBackslashExpr isw (rest.headD 0)
                ((rest.drop 1).headD 0) ((rest.drop 2).headD 0) 0).2.2)
              (pushI st (.ccl (getBackslashExpr isw (rest.headD 0)
                ((rest.drop 1).headD 0) ((rest.drop 2).headD 0) 0).2.1))
      else                           -- an ordinary char (or posix parens)
        if posix ∧ c = 40 then
          if st.tagc < MAXTAG then
            goC isw caseSensitive posix fuel rest
              { pushI st (.bot st.tagc) with
                tagstk := st.tagc :: st.tagstk, tagc := st.tagc + 1 }
          else .error "Too many () pairs"
        else if posix ∧ c = 41 then
          if isBotOp (lastOp st) then .error "Null pattern inside ()"
          else
            match st.tagstk with
            | t :: ts =>
              goC isw caseSensitive posix fuel rest
                { pushI st (.eot t) with tagstk := ts }
            | [] => .error "Unmatched )"
        else
          if caseSensitive ∨ ¬ isw (if c = 0 then 92 else c) then
            goC isw caseSensitive posix fuel rest
              (pushI st (.chr (if c = 0 then 92 else c)))
          else
            goC isw caseSensitive posix fuel rest
              (pushI st (.ccl (chSetWithCase 0 (if c = 0 then 92 else c) false)))

/-- `RESearch::DoCompile` for a non-null, non-empty pattern. -/
def doCompile (isw : Nat → Bool) (caseSensitive posix : Bool) (cs : List Nat) :
    Except String (List Instr) :=
  goC isw caseSensitive posix (cs.length + 1) cs ⟨[], 0, [], 1, true⟩

/-! ### The matcher

`CharacterIndexer` is instantiated with a plain byte buffer:
`CharAt i` is 0 outside the buffer (Scintilla documents return `'\0'`
there), `MovePositionOutsideChar` is the identity, `NextPosition p d` is
`p + d` and the word oracles are derived from the word-class table `isw`.
`NOTFOUND` return values are `none`. -/

def NOTFOUND : Int := -1

/-- `CharAt` on a byte buffer. -/
def charAt (txt : List Nat) (i : Int) : Nat :=
  if 0 ≤ i ∧ i < txt.length then txt.getD i.toNat 0 else 0

/-- `IsWordStartAt` of the host document, for the byte-buffer indexer. -/
def isWordStartAt (txt : List Nat) (isw : Nat → Bool) (pos : Int) : Bool :=
  isw (charAt txt pos) ∧ ¬ isw (charAt txt (pos - 1))

/-- `IsWordEndAt` of the host document, for the byte-buffer indexer. -/
def isWordEndAt (txt : List Nat) (isw : Nat → Bool) (pos : Int) : Bool :=
  ¬ isw (charAt txt pos) ∧ isw (charAt txt (pos - 1))

/-- Word extension scan for `ExtendWordSelect` (byte-buffer indexer). -/
def extendScan (txt : List Nat) (isw : Nat → Bool) (dir : Int) :
    Nat → Int → Int
  | 0, p => p
  | k + 1, p => if isw (charAt txt (if dir ≥ 0 then p else p - 1)) then
      extendScan txt isw dir k (p + dir) else p

/-- `ExtendWordSelect` of the host document, for the byte-buffer indexer. -/
def extendWordSelect (txt : List Nat) (isw : Nat → Bool) (pos dir : Int) : Int :=
  extendScan txt isw dir (txt.length + 1) pos

/-- The movement hint written into `*offset` when a word-boundary opcode
fails: `e = MovePositionOutsideChar(lp, moveDir)` (identity here), then
`e = (e == lp) ? NextPosition(lp, moveDir) - lp : e - lp`, then
`*offset = (e == 0) ? moveDir : e`. -/
def offsetHint (lp moveDir : Int) : Int :=
  let e : Int := lp
  let e1 : Int := if e = lp then (lp + moveDir) - lp else e - lp
  if e1 = 0 then moveDir else e1

/-- The same hint computed from an already-extended position `e`
(the `EXP_MATCH_TO_WORD_END` failure path). -/
def offsetHintE (e lp moveDir : Int) : Int :=
  let e1 : Int := if e = lp then (lp + moveDir) - lp else e - lp
  if e1 = 0 then moveDir else e1

/-- Matcher state: the capture tables `bopat`/`eopat` and the structural
`failure` flag of the engine. -/
structure MState where
  bopat : Nat → Int
  eopat : Nat → Int
  failure : Bool

/-- All captures `NOTFOUND` (`RESearch::Clear`). -/
def clearM : MState := ⟨fun _ => NOTFOUND, fun _ => NOTFOUND, false⟩

/-- Result of one `PMatch` call: the returned position (`none` is
`NOTFOUND`), the updated matcher state, and the value written through the
`*offset` out-parameter, if any. -/
structure PRes where
  res : Option Int
  st : MState
  off : Option Int

/-- `CLO CHR` fast scan: advance while the character matches.  The fuel is
`(endp - lp).toNat`, which makes the `lp < endp` bound exact. -/
def scanChr (txt : List Nat) (c : Nat) : Nat → Int → Int
  | 0, lp => lp
  | k + 1, lp => if charAt txt lp = c then scanChr txt c k (lp + 1) else lp

/-- `CLO CCL` fast scan. -/
def scanCcl (txt : List Nat) (bits : Nat) : Nat → Int → Int
  | 0, lp => lp
  | k + 1, lp => if isinset bits (charAt txt lp) then scanCcl txt bits k (lp + 1) else lp

/-- `REF n` replay: all characters of `[bp, bp+len)` equal `[lp, lp+len)`. -/
def refEq (txt : List Nat) (bp lp : Int) (len : Nat) : Bool :=
  (List.range len).all (fun i => charAt txt (bp + i) = charAt txt (lp + i))

mutual

/-- `RESearch::PMatch`, one recursive interpreter step per instruction.
`bolP` is the `bol` field of the engine, `hasOff` tells whether the
`offset` out-parameter is non-null.  `fuel` bounds the recursion depth and
the closure backtracking loop; exhausting it yields `NOTFOUND` with the
state reached so far. -/
def pmatch (isw : Nat → Bool) (txt : List Nat) (bolP endp : Int) :
    Nat → List Instr → Int → Int → Bool → MState → PRes
  | 0, _, _, _, _, st => ⟨none, st, none⟩
  | _ + 1, [], lp, _, _, st => ⟨some lp, st, none⟩
  | fuel + 1, ins :: rest, lp, moveDir, hasOff, st =>
    match ins with
    | .stop => ⟨some lp, st, none⟩
    | .chr c =>
      if charAt txt lp ≠ c then ⟨none, st, none⟩
      else pmatch isw txt bolP endp fuel rest (lp + 1) moveDir hasOff st
    | .any =>
      if lp ≥ endp then ⟨none, st, none⟩
      else pmatch isw txt bolP endp fuel rest (lp + 1) moveDir hasOff st
    | .ccl bits =>
      if lp ≥ endp then ⟨none, st, none⟩
      else if ¬ isinset bits (charAt txt lp) then ⟨none, st, none⟩
      else pmatch isw txt bolP endp fuel rest (lp + 1) moveDir hasOff st
    | .bol =>
      if lp ≠ bolP then ⟨none, st, none⟩
      else pmatch isw txt bolP endp fuel rest lp moveDir hasOff st
    | .eol =>
      if lp < endp then ⟨none, st, none⟩
      else pmatch isw txt bolP endp fuel rest lp moveDir hasOff st
    | .bot n =>
      pmatch isw txt bolP endp fuel rest lp moveDir hasOff
        { st with bopat := fun k => if k = n then lp else st.bopat k }
    | .eot n =>
      pmatch isw txt bolP endp fuel rest lp moveDir hasOff
        { st with eopat := fun k => if k = n then lp else st.eopat k }
    | .bow =>
      if (lp ≠ bolP ∧ isw (charAt txt (lp - 1))) ∨ ¬ isw (charAt txt lp) then
        ⟨none, st, none⟩
      else pmatch isw txt bolP endp fuel rest lp moveDir hasOff st
    | .eow =>
      if lp = bolP ∨ ¬ isw (charAt txt (lp - 1)) ∨ isw (charAt txt lp) then
        ⟨none, st, none⟩
      else pmatch isw txt bolP endp fuel rest lp moveDir hasOff st
    | .mws =>
      if ¬ isWordStartAt txt isw lp then
        ⟨none, st, if hasOff then some (offsetHint lp moveDir) else none⟩
      else pmatch isw txt bolP endp fuel rest lp moveDir hasOff st
    | .mwe =>
      if lp = bolP ∨ ¬ isWordEndAt txt isw lp then
        ⟨none, st, if hasOff then some (offsetHint lp moveDir) else none⟩
      else pmatch isw txt bolP endp fuel rest lp moveDir hasOff st
    | .mtwe =>
      let e := extendWordSelect txt isw lp moveDir
      if e = lp ∨ ¬ isWordEndAt txt isw e then
        ⟨none, st, if hasOff then some (offsetHintE e lp moveDir) else none⟩
      else pmatch isw txt bolP endp fuel rest e moveDir hasOff st
    | .mtweOpt =>
      let e := extendWordSelect txt isw lp moveDir
      if ¬ isWordEndAt txt isw e then
        ⟨none, st, if hasOff then some (offsetHintE e lp moveDir) else none⟩
      else pmatch isw txt bolP endp fuel rest e moveDir hasOff st
    | .ref n =>
      let bp := st.bopat n
      let ep := st.eopat n
      let len := (ep - bp).toNat
      if refEq txt bp lp len then
        pmatch isw txt bolP endp fuel rest (lp + len) moveDir hasOff st
      else ⟨none, st, none⟩
    | .clo | .clq | .lclo =>
      let isLazy := ins = .lclo
      let are := lp
      match rest.headD .stop with
      | .any =>
        let lp1 := if ins = .clo ∨ ins = .lclo then max lp endp
                   else if lp < endp then lp + 1 else lp
        cloLoop isw txt bolP endp fuel (rest.drop 2) are lp1 lp1 none isLazy st
      | .chr c =>
        let lp1 := if ins = .clo ∨ ins = .lclo then
                     scanChr txt c (endp - lp).toNat lp
                   else if lp < endp ∧ charAt txt lp = c then lp + 1 else lp
        cloLoop isw txt bolP endp fuel (rest.drop 2) are lp1 lp1 none isLazy st
      | .ccl bits =>
        let lp1 := scanCcl txt bits (endp - lp).toNat lp
        cloLoop isw txt bolP endp fuel (rest.drop 2) are lp1 lp1 none isLazy st
      | _ => ⟨none, { st with failure := true }, none⟩

/-- The backtracking loop inside the closure case of `PMatch` (the
`while (llp >= are)` loop followed by the final `EOT` call).  `lpCur` is
the local `lp` after the forward scan, `e` the best/first tail match. -/
def cloLoop (isw : Nat → Bool) (txt : List Nat) (bolP endp : Int) :
    Nat → List Instr → Int → Int → Int → Option Int → Bool → MState → PRes
  | 0, _, _, _, _, e, _, st => ⟨e, st, none⟩
  | fuel + 1, tail, are, llp, lpCur, e, isLazy, st =>
    if llp ≥ are then
      let r := pmatch isw txt bolP endp fuel tail llp (-1) true st
      match r.res with
      | some q =>
        if ¬ isLazy then ⟨some q, r.st, none⟩
        else if tail.headD .stop = .stop then ⟨some q, r.st, none⟩
        else cloLoop isw txt bolP endp fuel tail are (llp + (r.off.getD (-1))) llp
               (some q) isLazy r.st
      | none =>
        if tail.headD .stop = .stop then ⟨e, r.st, none⟩
        else cloLoop isw txt bolP endp fuel tail are (llp + (r.off.getD (-1))) lpCur
               e isLazy r.st
    else
      match tail.headD .stop with
      | .eot _ =>
        let r := pmatch isw txt bolP endp fuel tail lpCur 1 false st
        ⟨e, r.st, none⟩
      | _ => ⟨e, st, none⟩

end

/-- `CHR` fast path of `Execute`: skip to the first position holding `c`. -/
def findChar (txt : List Nat) (c : Nat) : Nat → Int → Int
  | 0, lp => lp
  | k + 1, lp => if charAt txt lp ≠ c then findChar txt c k (lp + 1) else lp

/-- Result of `Execute`: the C return value and the capture state. -/
structure ERes where
  ret : Nat
  st : MState

/-- The linear scan loop of `Execute` (`while (lp < endp)` with the
`offset` hint).  One fuel unit per scan position. -/
def execScan (isw : Nat → Bool) (txt : List Nat) (bolP endp : Int)
    (pfuel : Nat) (prog : List Instr) : Nat → Int → MState → ERes
  | 0, _, st => ⟨0, st⟩
  | fuel + 1, lp, st =>
    if lp < endp then
      let r := pmatch isw txt bolP endp pfuel prog lp 1 true st
      match r.res with
      | some ep =>
        ⟨1, { r.st with
              bopat := fun k => if k = 0 then lp else r.st.bopat k,
              eopat := fun k => if k = 0 then ep else r.st.eopat k }⟩
      | none => execScan isw txt bolP endp pfuel prog fuel (lp + (r.off.getD 1)) r.st
    else ⟨0, st⟩

/-- `RESearch::Execute`.  `fuel` is the `PMatch` recursion budget; the scan
loop gets one unit per position of `[lp, endp)`. -/
def execute (isw : Nat → Bool) (txt : List Nat) (fuel : Nat)
    (prog : List Instr) (lp0 endp : Int) : ERes :=
  let st0 := clearM
  match prog.headD .stop with
  | .bol =>
    let r := pmatch isw txt lp0 endp fuel prog lp0 1 false st0
    match r.res with
    | some ep =>
      ⟨1, { r.st with
            bopat := fun k => if k = 0 then lp0 else r.st.bopat k,
            eopat := fun k => if k = 0 then ep else r.st.eopat k }⟩
    | none => ⟨0, r.st⟩
  | .eol =>
    if (prog.drop 1).headD .stop = .stop then
      ⟨1, { st0 with
            bopat := fun k => if k = 0 then endp else st0.bopat k,
            eopat := fun k => if k = 0 then endp else st0.eopat k }⟩
    else ⟨0, st0⟩
  | .chr c =>
    let lp1 := findChar txt c (endp - lp0).toNat lp0
    if lp1 ≥ endp then ⟨0, st0⟩
    else execScan isw txt lp0 endp fuel prog ((endp - lp1).toNat + 1) lp1 st0
  | .stop => ⟨0, st0⟩
  | _ => execScan isw txt lp0 endp fuel prog ((endp - lp0).toNat + 1) lp0 st0

/-! ## SQL colouriser (LexSQL.cxx, `ColouriseSqlDoc`)

The `StyleContext`/`Accessor` host machinery is external to the covered
source; it is modelled with its standard Scintilla semantics: the context
keeps `currentPos` and `state`, `SetState s` colours everything up to
`currentPos - 1` with the old state, `ForwardSetState` additionally
consumes the current char into the old state, and positions beyond the
buffer read 0.  Styles are produced for positions `[0, N)` of the buffer
(the lexed range starts at 0 here).  Style values are the SciLexer
constants; their numeric values are irrelevant as long as they are
distinct. -/

def SCE_SQL_DEFAULT : Nat := 0
def SCE_SQL_COMMENT : Nat := 1
def SCE_SQL_COMMENTLINE : Nat := 2
def SCE_SQL_NUMBER : Nat := 4
def SCE_SQL_WORD : Nat := 5
def SCE_SQL_STRING : Nat := 6
def SCE_SQL_CHARACTER : Nat := 7
def SCE_SQL_OPERATOR : Nat := 10
def SCE_SQL_IDENTIFIER : Nat := 11
def SCE_SQL_COMMENTLINEDOC : Nat := 15
def SCE_SQL_WORD2 : Nat := 16
def SCE_SQL_USER1 : Nat := 19
def SCE_SQL_QUOTEDIDENTIFIER : Nat := 23
def SCE_SQL_HEX : Nat := 24
def SCE_SQL_HEX2 : Nat := 25
def SCE_SQL_BIT : Nat := 26
def SCE_SQL_BIT2 : Nat := 27
def SCE_SQL_VARIABLE : Nat := 28

/-- `IsADigit` (CharacterSet.h). -/
def isDigitB (c : Nat) : Bool := 48 ≤ c ∧ c ≤ 57

/-- `IsHexDigit`. -/
def isHexDigitB (c : Nat) : Bool :=
  isDigitB c ∨ (65 ≤ c ∧ c ≤ 70) ∨ (97 ≤ c ∧ c ≤ 102)

/-- `IsAlphaNumeric`. -/
def isAlphaNumericB (c : Nat) : Bool :=
  isDigitB c ∨ (65 ≤ c ∧ c ≤ 90) ∨ (97 ≤ c ∧ c ≤ 122)

/-- `iswordchar` (CharacterSet.h): alnum, `.` or `_`. -/
def iswordcharB (c : Nat) : Bool := isAlphaNumericB c ∨ c = 46 ∨ c = 95

/-- `iswordstart` (CharacterSet.h): alnum or `_`. -/
def iswordstartB (c : Nat) : Bool := isAlphaNumericB c ∨ c = 95

/-- `isspacechar`: space or 0x09..0x0D. -/
def isspacecharB (c : Nat) : Bool := c = 32 ∨ (9 ≤ c ∧ c ≤ 13)

/-- `isoperator` (Accessor-era CharacterSet.h). -/
def isoperatorB (c : Nat) : Bool :=
  c ∈ [37, 94, 38, 42, 40, 41, 45, 43, 61, 124, 123, 125, 91, 93, 58, 59,
       60, 62, 44, 47, 63, 33, 46, 126]

/-- `IsSqlWordChar` (LexSQL.cxx). -/
def isSqlWordChar (c : Nat) (sqlAllowDottedWord : Bool) : Bool :=
  if ¬ sqlAllowDottedWord then c < 128 ∧ (isAlphaNumericB c ∨ c = 95)
  else c < 128 ∧ (isAlphaNumericB c ∨ c = 95 ∨ c = 46)

/-- `IsANumberChar` (LexSQL.cxx). -/
def isANumberChar (c cPrev : Nat) : Bool :=
  c < 128 ∧ (isDigitB c ∨ (c = 46 ∧ cPrev ≠ 46)
    ∨ ((c = 43 ∨ c = 45) ∧ (cPrev = 101 ∨ cPrev = 69))
    ∨ ((c = 101 ∨ c = 69) ∧ cPrev < 128 ∧ isDigitB cPrev))

/-- `tolower` for ASCII. -/
def toLowerB (c : Nat) : Nat := if 65 ≤ c ∧ c ≤ 90 then c + 32 else c

/-- Lexer options (`GetPropertyInt` reads, with their defaults). -/
structure SqlOpts where
  backticksIdentifier : Bool := true
  numbersignComment : Bool := true
  backslashEscapes : Bool := true
  allowDottedWord : Bool := false

/-- Keyword-list membership oracles (the external `WordList` objects):
`kw1`/`kw2` are `InList` on keyword lists 1 and 2, `u1` is
`InListAbbreviated(s, '(')` on user list 1. -/
structure SqlKw where
  kw1 : List Nat → Bool
  kw2 : List Nat → Bool
  u1 : List Nat → Bool

/-- The style context: position, current state and the styles already
flushed (position `k` of the range has style `styles.get k`). -/
structure SCtx where
  pos : Nat
  state : Nat
  styles : List Nat

def sctxCh (txt : List Nat) (c : SCtx) : Nat := txt.getD c.pos 0
def sctxChNext (txt : List Nat) (c : SCtx) : Nat := txt.getD (c.pos + 1) 0
def sctxChPrev (txt : List Nat) (c : SCtx) : Nat :=
  if c.pos = 0 then 0 else txt.getD (c.pos - 1) 0

/-- `atLineStart`: at position 0 or after a line end. -/
def sctxAtLineStart (txt : List Nat) (c : SCtx) : Bool :=
  c.pos = 0 ∨ sctxChPrev txt c = 10 ∨
    (sctxChPrev txt c = 13 ∧ sctxCh txt c ≠ 10)

/-- `styler.ColourTo(pos - 1, state)`: flush up to `pos - 1`. -/
def flushTo (c : SCtx) (pos : Nat) : List Nat :=
  c.styles ++ List.replicate (pos - c.styles.length) c.state

/-- `StyleContext::SetState`. -/
def setState (c : SCtx) (newState : Nat) : SCtx :=
  { c with styles := flushTo c c.pos, state := newState }

/-- `StyleContext::Forward` (saturating at the end of the range). -/
def fwd (n : Nat) (c : SCtx) : SCtx :=
  if c.pos < n then { c with pos := c.pos + 1 } else c

/-- `StyleContext::ForwardSetState`. -/
def fwdSetState (n : Nat) (c : SCtx) (newState : Nat) : SCtx :=
  setState (fwd n c) newState

/-- `StyleContext::ChangeState`. -/
def changeState (c : SCtx) (newState : Nat) : SCtx := { c with state := newState }

/-- `LexGetNextChar` (external notepad2 helper): the next character at or
after `pos` that is not whitespace. -/
def lexGetNextChar (txt : List Nat) (pos : Nat) : Nat :=
  match (txt.drop pos).dropWhile isspacecharB with
  | [] => 0
  | c :: _ => c

/-- Closing an identifier: `GetCurrentLowered` (truncated to 127 chars),
the keyword-list tests, then `SetState(SCE_SQL_DEFAULT)`.  This is the
`_label_identifier` block. -/
def identClose (txt : List Nat) (kw : SqlKw) (c : SCtx) : SCtx :=
  let s := (((txt.drop c.styles.length).take (c.pos - c.styles.length)).map toLowerB).take 127
  let c1 :=
    if kw.kw1 s then changeState c SCE_SQL_WORD
    else if kw.kw2 s then changeState c SCE_SQL_WORD2
    else if lexGetNextChar txt c.pos = 40 ∧ kw.u1 s then changeState c SCE_SQL_USER1
    else c
  setState c1 SCE_SQL_DEFAULT

/-- The "determine if the current state should terminate" switch of the
`ColouriseSqlDoc` loop body. -/
def colTerm (txt : List Nat) (n : Nat) (opts : SqlOpts) (kw : SqlKw) (c : SCtx) : SCtx :=
  let ch := sctxCh txt c
  let chNext := sctxChNext txt c
  let chPrev := sctxChPrev txt c
  if c.state = SCE_SQL_OPERATOR then setState c SCE_SQL_DEFAULT
    else if c.state = SCE_SQL_HEX then
      if ¬ isHexDigitB ch then setState c SCE_SQL_DEFAULT else c
    else if c.state = SCE_SQL_HEX2 then
      if ch = 34 ∨ ch = 39 then fwdSetState n c SCE_SQL_DEFAULT else c
    else if c.state = SCE_SQL_BIT then
      if ¬ (ch = 48 ∨ ch = 49) then setState c SCE_SQL_DEFAULT else c
    else if c.state = SCE_SQL_BIT2 then
      if ch = 39 then fwdSetState n c SCE_SQL_DEFAULT else c
    else if c.state = SCE_SQL_NUMBER then
      if ¬ isANumberChar ch chPrev then setState c SCE_SQL_DEFAULT else c
    else if c.state = SCE_SQL_VARIABLE then
      if ¬ (iswordcharB ch ∨ ch = 64) then setState c SCE_SQL_DEFAULT else c
    else if c.state = SCE_SQL_IDENTIFIER then
      if ¬ isSqlWordChar ch opts.allowDottedWord then identClose txt kw c else c
    else if c.state = SCE_SQL_QUOTEDIDENTIFIER then
      if ch = 96 then
        if chNext = 96 then fwd n c else fwdSetState n c SCE_SQL_DEFAULT
      else c
    else if c.state = SCE_SQL_COMMENT then
      if ch = 42 ∧ chNext = 47 then fwdSetState n (fwd n c) SCE_SQL_DEFAULT else c
    else if c.state = SCE_SQL_COMMENTLINE ∨ c.state = SCE_SQL_COMMENTLINEDOC then
      if sctxAtLineStart txt c then setState c SCE_SQL_DEFAULT else c
    else if c.state = SCE_SQL_CHARACTER then
      if opts.backslashEscapes ∧ ch = 92 then fwd n c
      else if ch = 39 then
        if chNext = 34 then fwd n c else fwdSetState n c SCE_SQL_DEFAULT
      else c
    else if c.state = SCE_SQL_STRING then
      if ch = 92 then fwd n c
      else if ch = 34 then
        if chNext = 34 then fwd n c else fwdSetState n c SCE_SQL_DEFAULT
      else c
    else c

/-- The "determine if a new state should be entered" block of the
`ColouriseSqlDoc` loop body. -/
def colEnter (txt : List Nat) (n : Nat) (opts : SqlOpts) (c1 : SCtx) : SCtx :=
  if c1.state = SCE_SQL_DEFAULT then
    let ch := sctxCh txt c1
    let chNext := sctxChNext txt c1
    if ch = 48 ∧ (chNext = 120 ∨ chNext = 88) then fwd n (setState c1 SCE_SQL_HEX)
    else if (ch = 120 ∨ ch = 88) ∧ (chNext = 34 ∨ chNext = 39) then
      fwd n (setState c1 SCE_SQL_HEX2)
    else if ch = 48 ∧ (chNext = 98 ∨ chNext = 66) then fwd n (setState c1 SCE_SQL_BIT)
    else if (ch = 98 ∨ ch = 66) ∧ chNext = 39 then fwd n (setState c1 SCE_SQL_BIT2)
    else if isDigitB ch ∨ (ch = 46 ∧ isDigitB chNext) then setState c1 SCE_SQL_NUMBER
    else if ch = 64 ∧ iswordstartB chNext then setState c1 SCE_SQL_VARIABLE
    else if iswordstartB ch then setState c1 SCE_SQL_IDENTIFIER
    else if ch = 96 ∧ opts.backticksIdentifier then setState c1 SCE_SQL_QUOTEDIDENTIFIER
    else if ch = 47 ∧ chNext = 42 then fwd n (setState c1 SCE_SQL_COMMENT)
    else if ch = 45 ∧ chNext = 45 then setState c1 SCE_SQL_COMMENTLINE
    else if ch = 35 ∧ opts.numbersignComment then setState c1 SCE_SQL_COMMENTLINEDOC
    else if ch = 39 then setState c1 SCE_SQL_CHARACTER
    else if ch = 34 then setState c1 SCE_SQL_STRING
    else if isoperatorB ch then setState c1 SCE_SQL_OPERATOR
    else c1
  else c1

/-- One iteration of the `ColouriseSqlDoc` loop body, before the loop's
own `Forward`. -/
def colStep (txt : List Nat) (n : Nat) (opts : SqlOpts) (kw : SqlKw) (c : SCtx) : SCtx :=
  colEnter txt n opts (colTerm txt n opts kw c)

/-- The `for (; sc.More(); sc.Forward())` loop. -/
def colLoop (txt : List Nat) (n : Nat) (opts : SqlOpts) (kw : SqlKw) :
    Nat → SCtx → SCtx
  | 0, c => c
  | fuel + 1, c =>
    if c.pos < n then colLoop txt n opts kw fuel (fwd n (colStep txt n opts kw c))
    else c

/-- `ColouriseSqlDoc` over the whole buffer: returns the style of every
position.  The final `goto _label_identifier` closes a trailing
identifier, then `sc.Complete()` flushes the rest. -/
def colouriseSql (txt : List Nat) (opts : SqlOpts) (kw : SqlKw) (initStyle : Nat) :
    List Nat :=
  let n := txt.length
  let c1 := colLoop txt n opts kw (n + 1) ⟨0, initStyle, []⟩
  let c2 := if c1.state = SCE_SQL_IDENTIFIER then identClose txt kw c1 else c1
  flushTo c2 n

/-! ## SQL folder (LexSQL.cxx, `FoldSqlDoc`)

Fold levels are C `int`s; the packed per-line word
`lev = levelUse | levelNext << 16` (plus flag bits) is computed with
32-bit two's-complement `|` and `<<`, modelled by `cOr`/`cShl16`.
`IsLexCommentLine` and the host's line/level storage are external
(`isCommentLine`, `levels0`, and the `GetLine(startPos)` result
`lineStart0` are parameters).  Each `styler.SetLevel` call is recorded
together with the `levelUse`/`levelNext` values it packed. -/

def toU32 (x : Int) : Nat := (x % 4294967296).toNat

def ofU32 (v : Nat) : Int :=
  if v % 4294967296 < 2147483648 then v % 4294967296
  else (v % 4294967296 : Int) - 4294967296

/-- C `|` on 32-bit `int`. -/
def cOr (a b : Int) : Int := ofU32 (toU32 a ||| toU32 b)

/-- C `<< 16` on 32-bit `int`. -/
def cShl16 (x : Int) : Int := ofU32 (toU32 x <<< 16)

def SC_FOLDLEVELBASE : Int := 0x400
def SC_FOLDLEVELWHITEFLAG : Int := 0x1000
def SC_FOLDLEVELHEADERFLAG : Int := 0x2000

/-- The fold word stored per line:
`lev = levelUse | levelNext << 16`, plus `SC_FOLDLEVELWHITEFLAG` for blank
lines (compact mode) and `SC_FOLDLEVELHEADERFLAG` when
`levelUse < levelNext`. -/
def packLev (levelUse levelNext : Int) (white : Bool) : Int :=
  let lev := cOr levelUse (cShl16 levelNext)
  let lev := if white then cOr lev SC_FOLDLEVELWHITEFLAG else lev
  if levelUse < levelNext then cOr lev SC_FOLDLEVELHEADERFLAG else lev

/-- Masks of the per-line SQL fold-state word. -/
def MASK_NESTED_CASES : Nat := 0x01FF
def MASK_INTO_SELECT : Nat := 0x0200
def MASK_CASE_MERGE_WITHOUT_WHEN : Nat := 0x0400
def MASK_MERGE_STATEMENT : Nat := 0x0800
def MASK_INTO_DECLARE : Nat := 0x1000
def MASK_INTO_EXCEPTION : Nat := 0x2000
def MASK_INTO_CONDITION : Nat := 0x4000
def MASK_IGNORE_WHEN : Nat := 0x8000

def maskSet (s : Nat) (m : Nat) (enable : Bool) : Nat :=
  if enable then s ||| m else s &&& (0xFFFF ^^^ m)

def maskHas (s : Nat) (m : Nat) : Bool := s &&& m ≠ 0

/-- `SQLStates::BeginCaseBlock` (saturating 9-bit counter). -/
def beginCaseBlock (s : Nat) : Nat :=
  if s &&& MASK_NESTED_CASES < MASK_NESTED_CASES then s + 1 else s

/-- `SQLStates::EndCaseBlock`. -/
def endCaseBlock (s : Nat) : Nat :=
  if 0 < s &&& MASK_NESTED_CASES then s - 1 else s

def isCommentStyleB (style : Nat) : Bool :=
  style = SCE_SQL_COMMENT ∨ style = SCE_SQL_COMMENTLINE ∨ style = SCE_SQL_COMMENTLINEDOC

def isStreamCommentStyleB (style : Nat) : Bool := style = SCE_SQL_COMMENT

/-- Fold options (`GetPropertyInt` reads in `FoldSqlDoc`). -/
structure FoldOpts where
  foldOnlyBegin : Bool := false
  foldComment : Bool := true
  foldAtElse : Bool := false
  foldCompact : Bool := false

/-- The keyword buffer of the fold loop: up to `MAX_KW_LEN = 9` word
characters starting at `i`, lowercased; a run of 10 word characters is
"too long" and becomes the empty string. -/
def kwExtract (txt : List Nat) (i : Nat) : List Nat :=
  let raw := ((List.range 10).map (fun j => txt.getD (i + j) 0)).takeWhile iswordcharB
  if raw.length = 10 then [] else raw.map toLowerB

def sBytes (s : String) : List Nat := s.toList.map Char.toNat

/-- One `styler.SetLevel(line, lev)` call, together with the local
`levelUse`/`levelNext` values from which `lev` was packed. -/
structure FoldEntry where
  line : Nat
  levelUse : Int
  levelNext : Int
  lev : Int
deriving DecidableEq, Repr

/-- Loop state of `FoldSqlDoc`. -/
structure FSt where
  chNext : Nat
  style : Nat
  styleNext : Nat
  endFound : Bool
  isUnfoldingIgnored : Bool
  statementFound : Bool
  states : Nat
  visibleChars : Nat
  levelCurrent : Int
  levelNext : Int
  lineCurrent : Nat
  vec : List Nat
  recorded : List FoldEntry

/-- The per-character loop variables of `FoldSqlDoc` before the
end-of-line store block. -/
structure FPre where
  chNext : Nat
  style : Nat
  styleNext : Nat
  endFound : Bool
  isUnfoldingIgnored : Bool
  statementFound : Bool
  states : Nat
  visibleChars : Nat
  levelCurrent : Int
  levelNext : Int
  atEOL : Bool

/-- The body of the `for (i = startPos; i < endPos; i++)` loop of
`FoldSqlDoc` up to (not including) the end-of-line store block,
translated statement by statement. -/
def foldPre (txt styles : List Nat) (opts : FoldOpts)
    (isCommentLine : Int → Bool)
    (st : FSt) (i : Nat) : FPre :=
  let ch := st.chNext
  let chNext := txt.getD (i + 1) 0
  let stylePrev := st.style
  let style := st.styleNext
  let styleNext := styles.getD (i + 1) 0
  let atEOL := (ch = 13 ∧ chNext ≠ 10) ∨ ch = 10
  -- end of statement / end of line: close EXCEPTION, reset endFound
  let states := st.states
  let (states, endFound, isUnfoldingIgnored) :=
    if atEOL ∨ (¬ isCommentStyleB style ∧ ch = 59) then
      (if st.endFound then maskSet states MASK_INTO_EXCEPTION false else states,
       false, false)
    else (states, st.endFound, st.isUnfoldingIgnored)
  -- ';' closes MERGE and SELECT/assignment
  let (states, levelNext) :=
    if ¬ isCommentStyleB style ∧ ch = 59 then
      let (states, levelNext) :=
        if maskHas states MASK_MERGE_STATEMENT then
          let levelNext :=
            if ¬ maskHas states MASK_CASE_MERGE_WITHOUT_WHEN then st.levelNext - 1
            else st.levelNext
          (maskSet states MASK_MERGE_STATEMENT false, levelNext - 1)
        else (states, st.levelNext)
      (if maskHas states MASK_INTO_SELECT then maskSet states MASK_INTO_SELECT false
       else states, levelNext)
    else (states, st.levelNext)
  -- ':=' assignment
  let states :=
    if ch = 58 ∧ chNext = 61 ∧ ¬ isCommentStyleB style then
      maskSet states MASK_INTO_SELECT true
    else states
  -- stream comments
  let levelNext :=
    if opts.foldComment ∧ isStreamCommentStyleB style then
      if ¬ isStreamCommentStyleB stylePrev then levelNext + 1
      else if ¬ isStreamCommentStyleB styleNext ∧ ¬ atEOL then levelNext - 1
      else levelNext
    else levelNext
  -- line comment groups
  let levelNext :=
    if opts.foldComment ∧ atEOL ∧ isCommentLine st.lineCurrent then
      if ¬ isCommentLine ((st.lineCurrent : Int) - 1) ∧
         isCommentLine ((st.lineCurrent : Int) + 1) then levelNext + 1
      else if isCommentLine ((st.lineCurrent : Int) - 1) ∧
              ¬ isCommentLine ((st.lineCurrent : Int) + 1) then levelNext - 1
      else levelNext
    else levelNext
  -- operators
  let (states, levelCurrent, levelNext) :=
    if style = SCE_SQL_OPERATOR then
      if ch = 40 then
        ((states, if st.levelCurrent > levelNext then st.levelCurrent - 1
                  else st.levelCurrent, levelNext + 1) : Nat × Int × Int)
      else if ch = 41 then (states, st.levelCurrent, levelNext - 1)
      else if opts.foldOnlyBegin ∧ ch = 59 then
        (maskSet states MASK_IGNORE_WHEN false, st.levelCurrent, levelNext)
      else (states, st.levelCurrent, levelNext)
    else (states, st.levelCurrent, levelNext)
  -- keywords
  let (states, endFound, isUnfoldingIgnored, statementFound, levelCurrent, levelNext) :=
    if style = SCE_SQL_WORD ∧ stylePrev ≠ SCE_SQL_WORD then
      let s := kwExtract txt i
      if ¬ opts.foldOnlyBegin ∧ s = sBytes "select" then
        (maskSet states MASK_INTO_SELECT true, endFound, isUnfoldingIgnored,
         st.statementFound, levelCurrent, levelNext)
      else if s = sBytes "if" then
        if endFound then
          (states, false, isUnfoldingIgnored, st.statementFound, levelCurrent,
           if opts.foldOnlyBegin ∧ ¬ isUnfoldingIgnored then levelNext + 1 else levelNext)
        else
          (if ¬ opts.foldOnlyBegin then maskSet states MASK_INTO_CONDITION true else states,
           endFound, isUnfoldingIgnored, st.statementFound,
           if levelCurrent > levelNext then levelNext else levelCurrent, levelNext)
      else if ¬ opts.foldOnlyBegin ∧ s = sBytes "then" ∧ maskHas states MASK_INTO_CONDITION then
        let states := maskSet states MASK_INTO_CONDITION false
        if ¬ opts.foldOnlyBegin then
          (states, endFound, isUnfoldingIgnored, true,
           if levelCurrent > levelNext then levelNext else levelCurrent,
           if ¬ st.statementFound then levelNext + 1 else levelNext)
        else
          (states, endFound, isUnfoldingIgnored, st.statementFound,
           if levelCurrent > levelNext then levelNext else levelCurrent, levelNext)
      else if s = sBytes "loop" ∨ s = sBytes "case" ∨ s = sBytes "while" ∨
              s = sBytes "repeat" then
        if endFound then
          let levelNext :=
            if opts.foldOnlyBegin ∧ ¬ isUnfoldingIgnored then levelNext + 1 else levelNext
          let (states, levelNext) :=
            if ¬ opts.foldOnlyBegin ∧ s = sBytes "case" then
              let states := endCaseBlock states
              (states, if ¬ maskHas states MASK_CASE_MERGE_WITHOUT_WHEN then levelNext - 1
                       else levelNext)
            else (states, levelNext)
          (states, false, isUnfoldingIgnored, st.statementFound, levelCurrent, levelNext)
        else if ¬ opts.foldOnlyBegin then
          let states :=
            if s = sBytes "case" then
              maskSet (beginCaseBlock states) MASK_CASE_MERGE_WITHOUT_WHEN true
            else states
          (states, endFound, isUnfoldingIgnored, true,
           if levelCurrent > levelNext then levelNext else levelCurrent,
           if ¬ st.statementFound then levelNext + 1 else levelNext)
        else
          (states, endFound, isUnfoldingIgnored, st.statementFound,
           if levelCurrent > levelNext then levelNext else levelCurrent, levelNext)
      else if ¬ opts.foldOnlyBegin ∧ (opts.foldAtElse ∧ ¬ st.statementFound) ∧
              s = sBytes "elsif" then
        (maskSet states MASK_INTO_CONDITION true, endFound, isUnfoldingIgnored,
         st.statementFound, levelCurrent - 1, levelNext - 1)
      else if ¬ opts.foldOnlyBegin ∧ (opts.foldAtElse ∧ ¬ st.statementFound) ∧
              s = sBytes "else" then
        if maskHas states MASK_NESTED_CASES ∧ maskHas states MASK_CASE_MERGE_WITHOUT_WHEN then
          (maskSet states MASK_CASE_MERGE_WITHOUT_WHEN false, endFound, isUnfoldingIgnored,
           true, levelCurrent, levelNext + 1)
        else
          (states, endFound, isUnfoldingIgnored, true, levelCurrent - 1, levelNext)
      else if s = sBytes "begin" ∨ s = sBytes "start" then
        (maskSet states MASK_INTO_DECLARE false, endFound, isUnfoldingIgnored,
         st.statementFound, levelCurrent, levelNext + 1)
      else if s = sBytes "end" ∨ s = sBytes "endif" then
        let levelNext := levelNext - 1
        let levelNext :=
          if maskHas states MASK_INTO_SELECT ∧
             ¬ maskHas states MASK_CASE_MERGE_WITHOUT_WHEN then levelNext - 1
          else levelNext
        if levelNext < SC_FOLDLEVELBASE then
          (states, true, true, st.statementFound, levelCurrent, SC_FOLDLEVELBASE)
        else (states, true, isUnfoldingIgnored, st.statementFound, levelCurrent, levelNext)
      else if ¬ opts.foldOnlyBegin ∧ s = sBytes "when" ∧
              ¬ maskHas states MASK_IGNORE_WHEN ∧
              ¬ maskHas states MASK_INTO_EXCEPTION ∧
              (maskHas states MASK_NESTED_CASES ∨ maskHas states MASK_MERGE_STATEMENT) then
        let states := maskSet states MASK_INTO_CONDITION true
        if ¬ st.statementFound then
          let (levelCurrent, levelNext) :=
            if ¬ maskHas states MASK_CASE_MERGE_WITHOUT_WHEN then
              (levelCurrent - 1, levelNext - 1)
            else (levelCurrent, levelNext)
          (maskSet states MASK_CASE_MERGE_WITHOUT_WHEN false, endFound, isUnfoldingIgnored,
           st.statementFound, levelCurrent, levelNext)
        else (states, endFound, isUnfoldingIgnored, st.statementFound, levelCurrent, levelNext)
      else if ¬ opts.foldOnlyBegin ∧ s = sBytes "exit" then
        (maskSet states MASK_IGNORE_WHEN true, endFound, isUnfoldingIgnored,
         st.statementFound, levelCurrent, levelNext)
      else if ¬ opts.foldOnlyBegin ∧ ¬ maskHas states MASK_INTO_DECLARE ∧
              s = sBytes "exception" then
        (maskSet states MASK_INTO_EXCEPTION true, endFound, isUnfoldingIgnored,
         st.statementFound, levelCurrent, levelNext)
      else if ¬ opts.foldOnlyBegin ∧
              (s = sBytes "declare" ∨ s = sBytes "function" ∨
               s = sBytes "procedure" ∨ s = sBytes "package") then
        (maskSet states MASK_INTO_DECLARE true, endFound, isUnfoldingIgnored,
         st.statementFound, levelCurrent, levelNext)
      else if ¬ opts.foldOnlyBegin ∧ s = sBytes "merge" then
        (maskSet (maskSet states MASK_MERGE_STATEMENT true)
           MASK_CASE_MERGE_WITHOUT_WHEN true,
         endFound, isUnfoldingIgnored, true, levelCurrent, levelNext + 1)
      else (states, endFound, isUnfoldingIgnored, st.statementFound, levelCurrent, levelNext)
    else (states, endFound, isUnfoldingIgnored, st.statementFound, levelCurrent, levelNext)
  let visibleChars := if ¬ isspacecharB ch then st.visibleChars + 1 else st.visibleChars
  { chNext, style, styleNext, endFound, isUnfoldingIgnored, statementFound,
    states, visibleChars, levelCurrent, levelNext, atEOL }

/-- The end-of-line store block of the `FoldSqlDoc` loop: pack the fold
word, store it when it differs from the host's current value, advance the
line, persist the per-line SQL state word. -/
def foldFinish (opts : FoldOpts) (levels0 : Nat → Int) (endPos : Nat)
    (st : FSt) (p : FPre) (i : Nat) : FSt :=
  if p.atEOL ∨ i = endPos - 1 then
    { chNext := p.chNext, style := p.style, styleNext := p.styleNext,
      endFound := p.endFound, isUnfoldingIgnored := p.isUnfoldingIgnored,
      statementFound := false, states := p.states, visibleChars := 0,
      levelCurrent := p.levelNext, levelNext := p.levelNext,
      lineCurrent := st.lineCurrent + 1,
      vec := if ¬ opts.foldOnlyBegin then
               sqlStatesSet st.vec (st.lineCurrent + 1) p.states
             else st.vec,
      recorded :=
        if packLev p.levelCurrent p.levelNext
             (p.visibleChars = 0 ∧ opts.foldCompact) ≠ levels0 st.lineCurrent then
          st.recorded ++ [⟨st.lineCurrent, p.levelCurrent, p.levelNext,
            packLev p.levelCurrent p.levelNext
              (p.visibleChars = 0 ∧ opts.foldCompact)⟩]
        else st.recorded }
  else
    { chNext := p.chNext, style := p.style, styleNext := p.styleNext,
      endFound := p.endFound, isUnfoldingIgnored := p.isUnfoldingIgnored,
      statementFound := p.statementFound, states := p.states,
      visibleChars := p.visibleChars, levelCurrent := p.levelCurrent,
      levelNext := p.levelNext,
      lineCurrent := st.lineCurrent, vec := st.vec, recorded := st.recorded }

/-- The full loop body of `FoldSqlDoc`. -/
def foldStep (txt styles : List Nat) (opts : FoldOpts)
    (isCommentLine : Int → Bool) (levels0 : Nat → Int) (endPos : Nat)
    (st : FSt) (i : Nat) : FSt :=
  foldFinish opts levels0 endPos st (foldPre txt styles opts isCommentLine st i) i

/-- `FoldSqlDoc` over `[startPos, startPos + length)`.  `lineStart0` is the
host's `GetLine(startPos)`, `levels0` its pre-existing per-line levels and
`isCommentLine` the external `IsLexCommentLine` oracle.  Returns the list
of `SetLevel` calls made.  (With the `fold` property off the function
returns without storing anything.) -/
def foldSql (txt styles : List Nat) (fold : Bool) (opts : FoldOpts)
    (isCommentLine : Int → Bool) (levels0 : Nat → Int) (lineStart0 : Nat)
    (startPos length : Nat) (initStyle : Nat) : List FoldEntry :=
  if ¬ fold then []
  else
    let endPos := startPos + length
    let levelCurrent : Int :=
      if 0 < lineStart0 then (levels0 (lineStart0 - 1)).fdiv 65536
      else SC_FOLDLEVELBASE
    let st0 : FSt :=
      { chNext := txt.getD startPos 0, style := initStyle,
        styleNext := styles.getD startPos 0, endFound := false,
        isUnfoldingIgnored := false, statementFound := false,
        states := 0, visibleChars := 0, levelCurrent,
        levelNext := levelCurrent, lineCurrent := lineStart0,
        vec := [], recorded := [] }
    ((List.range' startPos length).foldl
      (foldStep txt styles opts isCommentLine levels0 endPos) st0).recorded

/-! ## Engine-level `RESearch::Compile` state

`Compile` keeps the compiled program, the `sta` status, and the cache
fingerprint `(previousPattern, previousLength, previousFlags)` plus the
copied bytes `cachedPattern`.  The pointer identity test
`pattern == previousPattern` together with the `memcmp` against
`cachedPattern` is modelled as value equality with the cached bytes.
A compile error executes `badpat`, which stores `END` at `nfa[0]`; since
`Execute` dispatches on the first opcode and returns 0 on `END`, the engine
program is modelled as just `[.stop]` in that case. -/

/-- The `FindOption` flags word: the POSIX bit plus the remaining bits. -/
structure FOpt where
  posix : Bool
  rest : Nat
deriving DecidableEq

structure Engine where
  nfa : List Instr
  sta : Bool
  prevValid : Bool           -- previousPattern != nullptr
  cachedPattern : List Nat
  prevFlags : FOpt

/-- The freshly constructed engine: `nfa` zero-filled (all `END`),
`sta = NOP`, no previous pattern. -/
def initEngine : Engine :=
  { nfa := [.stop], sta := false, prevValid := false,
    cachedPattern := [], prevFlags := ⟨false, 0⟩ }

/-- `RESearch::Compile`.  `pat = none` is a null pattern pointer. -/
def compileE (e : Engine) (isw : Nat → Bool) (caseSensitive : Bool)
    (flags : FOpt) (pat : Option (List Nat)) : Option String × Engine :=
  if e.sta ∧ (pat = none ∨ pat = some [] ∨
      (e.prevValid ∧ pat = some e.cachedPattern ∧ flags = e.prevFlags)) then
    (none, e)
  else
    match pat with
    | none =>
      if e.sta then (none, e)
      else (some "No previous regular expression", { e with nfa := [.stop] })
    | some [] =>
      if e.sta then (none, e)
      else (some "No previous regular expression", { e with nfa := [.stop] })
    | some cs =>
      match doCompile isw caseSensitive flags.posix cs with
      | .ok prog =>
        (none, { nfa := prog, sta := true, prevValid := true,
                 cachedPattern := cs, prevFlags := flags })
      | .error m => (some m, { e with nfa := [.stop], sta := false })

/-- The default word-class table of the host (`CharClassify`): digits,
letters and underscore. -/
def iswDefault : Nat → Bool := fun c =>
  (48 ≤ c ∧ c ≤ 57) ∨ (65 ≤ c ∧ c ≤ 90) ∨ (97 ≤ c ∧ c ≤ 122) ∨ c = 95

/-- A pattern character none of the compile cases treat specially: not NUL
and none of `.` `\\` `[` `*` `+` `?` `^` `$` `(` `)`. -/
def ordinaryChar (c : Nat) : Bool :=
  ¬ (c = 0 ∨ c = 46 ∨ c = 92 ∨ c = 91 ∨ c = 42 ∨ c = 43 ∨ c = 63 ∨
     c = 94 ∨ c = 36 ∨ c = 40 ∨ c = 41)

/-- What `DoCompile` emits for an ordinary character: `CHR c`, or a
two-entry `CCL` under case-insensitivity for word characters. -/
def instrOf (isw : Nat → Bool) (caseSensitive : Bool) (c : Nat) : Instr :=
  if caseSensitive ∨ ¬ isw c then .chr c else .ccl (chSetWithCase 0 c false)

/-! ### Claim-variant of the STRING rule (for C4)

`colStepClaim` follows the specification's words instead of the source: in
a STRING, `\` escapes the next character only when
`lexer.sql.backslash.escapes` is on (the source checks the option for
CHARACTER but not for STRING).  It is used only to compare outputs with
the source-translated `colouriseSql`. -/

def colStepClaim (txt : List Nat) (n : Nat) (opts : SqlOpts) (kw : SqlKw) (c : SCtx) : SCtx :=
  let ch := sctxCh txt c
  let chNext := sctxChNext txt c
  if c.state = SCE_SQL_STRING then
    colEnter txt n opts
      (if opts.backslashEscapes ∧ ch = 92 then fwd n c
       else if ch = 34 then
         if chNext = 34 then fwd n c else fwdSetState n c SCE_SQL_DEFAULT
       else c)
  else colStep txt n opts kw c

def colLoopClaim (txt : List Nat) (n : Nat) (opts : SqlOpts) (kw : SqlKw) :
    Nat → SCtx → SCtx
  | 0, c => c
  | fuel + 1, c =>
    if c.pos < n then colLoopClaim txt n opts kw fuel (fwd n (colStepClaim txt n opts kw c))
    else c

/-- The colouriser as the specification describes it (STRING escape gated
on the option). -/
def colouriseSqlClaim (txt : List Nat) (opts : SqlOpts) (kw : SqlKw) (initStyle : Nat) :
    List Nat :=
  let n := txt.length
  let c1 := colLoopClaim txt n opts kw (n + 1) ⟨0, initStyle, []⟩
  let c2 := if c1.state = SCE_SQL_IDENTIFIER then identClose txt kw c1 else c1
  flushTo c2 n

/-- Keyword oracles that reject everything (empty `WordList`s). -/
def kwNone : SqlKw := ⟨fun _ => false, fun _ => false, fun _ => false⟩

/-- Capture opcodes refer only to tags `1..9`: group 0 is never an
operand.  This is the property of compiled programs that keeps `PMatch`
away from `bopat[0]`/`eopat[0]`. -/
def tagsOk (prog : List Instr) : Prop :=
  (∀ n, Instr.bot n ∈ prog → n ≠ 0) ∧ (∀ n, Instr.eot n ∈ prog → n ≠ 0)

/-! # Theorems -/

/-! ## Helper lemmas -/

theorem vecResize_length (v : List Nat) (n : Nat) : (vecResize v n).length = n := by
  unfold vecResize
  split <;> simp <;> omega

/-! ## C6: the `SQLStates::Set` guard -/

/-- Claim C6 asserts that `Set` stores exactly when the vector is already
non-empty or the state is zero, that a non-zero state on an empty vector
is discarded and that a zero state always grows the vector.  It is false:
the guard `(!size()) == 0 || (!state) == 0` means `size != 0 || state != 0`,
so a non-zero state on an empty vector IS stored and a zero state on an
empty vector is discarded. -/
theorem C6_counterexample :
    sqlStatesSet [] 0 5 = [5] ∧ sqlStatesSet [] 0 0 = [] := by
  exact ⟨rfl, rfl⟩

/-- Claim C6 amended: `Set(lineNumber, state)` resizes the vector to
exactly `lineNumber + 1` entries and stores `state` at `lineNumber`
precisely when the vector is non-empty or the state is non-zero; a zero
state on an empty vector leaves the vector untouched. -/
theorem C6_amended_set_characterization (v : List Nat) (n s : Nat) :
    (v ≠ [] ∨ s ≠ 0 →
      (sqlStatesSet v n s).length = n + 1 ∧ (sqlStatesSet v n s).getD n 0 = s) ∧
    (v = [] → s = 0 → sqlStatesSet v n s = v) := by
  constructor
  · intro h
    have h' : v.length ≠ 0 ∨ s ≠ 0 := by
      rcases h with h | h
      · exact Or.inl (by simpa using h)
      · exact Or.inr h
    have hguard : cNot v.length = 0 ∨ cNot s = 0 := by
      rcases h' with h' | h' <;> [left; right] <;> simp [cNot, h']
    constructor
    · simp [sqlStatesSet, hguard, vecResize_length]
    · have hlen : (vecResize v (n + 1)).length = n + 1 := vecResize_length v (n + 1)
      simp [sqlStatesSet, hguard]
      rw [List.getElem?_set_self] <;> simp [hlen]
  · intro hv hs
    subst hv; subst hs
    rfl

/-- Witness for the amended C6 statement at a concrete input. -/
theorem C6_amended_set_characterization_witness :
    (sqlStatesSet [7] 1 0).length = 2 ∧ (sqlStatesSet [7] 1 0).getD 1 0 = 0 :=
  (C6_amended_set_characterization [7] 1 0).1 (Or.inl (by decide))

/-! ## C5: `[^-]]` scenarios -/

/-- Claim C5 asserts that with the compiled pattern `[^-]]` Execute finds
no match on `x]`, no match on `]`, and a match `[0,2)` on `Z]`.  It is
false: `[^-]]` compiles to a single class matching anything but `-` and
`]`, so `x]` yields the match `[0,1)`. -/
theorem C5_counterexample :
    doCompile iswDefault true false [91, 94, 45, 93, 93] =
      .ok [.ccl (chSet (chSet 0 45) 93 ^^^ allBits), .stop] ∧
    (execute iswDefault [120, 93] 100
      [.ccl (chSet (chSet 0 45) 93 ^^^ allBits), .stop] 0 2).ret = 1 := by
  exact ⟨rfl, rfl⟩

/-- Claim C5 amended: `[^-]]` is one inverted class (the trailing `]`
closes the set, it is not a literal), so `x]` matches `[0,1)`, `]` does
not match, and `Z]` matches `[0,1)` (not `[0,2)`). -/
theorem C5_amended_outcomes :
    doCompile iswDefault true false [91, 94, 45, 93, 93] =
      .ok [.ccl (chSet (chSet 0 45) 93 ^^^ allBits), .stop] ∧
    (let r := execute iswDefault [120, 93] 100
        [.ccl (chSet (chSet 0 45) 93 ^^^ allBits), .stop] 0 2;
      r.ret = 1 ∧ r.st.bopat 0 = 0 ∧ r.st.eopat 0 = 1) ∧
    (execute iswDefault [93] 100
        [.ccl (chSet (chSet 0 45) 93 ^^^ allBits), .stop] 0 1).ret = 0 ∧
    (let r := execute iswDefault [90, 93] 100
        [.ccl (chSet (chSet 0 45) 93 ^^^ allBits), .stop] 0 2;
      r.ret = 1 ∧ r.st.bopat 0 = 0 ∧ r.st.eopat 0 = 1) := by
  refine ⟨rfl, ⟨rfl, by decide, by decide⟩, rfl, ⟨rfl, by decide, by decide⟩⟩

/-! ## C7: the lazy closure `a.*?b` -/

/-- Claim C7: compiling `a.*?b` case-sensitively and executing it over
`axbxb` with bounds `[0,5)` yields a match with `bopat[0] = 0` and
`eopat[0] = 3` — the lazy closure takes the shortest match `axb`. -/
theorem C7_lazy_match :
    doCompile iswDefault true false [97, 46, 42, 63, 98] =
      .ok [.chr 97, .lclo, .any, .stop, .chr 98, .stop] ∧
    (let r := execute iswDefault [97, 120, 98, 120, 98] 100
        [.chr 97, .lclo, .any, .stop, .chr 98, .stop] 0 5;
      r.ret = 1 ∧ r.st.bopat 0 = 0 ∧ r.st.eopat 0 = 3) := by
  refine ⟨rfl, rfl, by decide, by decide⟩

/-! ## C3: doubling a closure character -/

/-- Claim C3 asserts that appending a second closure character to a
pattern ending in a closure is always a silent no-op.  It is false for
`?`: `a??` compiles (without error) to a `CLQ` wrapped in another `CLQ`,
a different program from `a?`. -/
theorem C3_counterexample :
    doCompile iswDefault true false [97, 63, 63] =
      .ok [.clq, .clq, .chr 97, .stop, .stop, .stop] ∧
    doCompile iswDefault true false [97, 63] =
      .ok [.clq, .chr 97, .stop, .stop] ∧
    ([.clq, .clq, .chr 97, .stop, .stop, .stop] : List Instr) ≠
      [.clq, .chr 97, .stop, .stop] := by
  exact ⟨rfl, rfl, by decide⟩

/-! ## C4: backslash escapes inside STRING -/

/-- Claim C4 asserts that inside a STRING a backslash escapes the next
character if and only if `lexer.sql.backslash.escapes` is on.  It is
false: the source checks the option for CHARACTER but not for STRING, so
with the option off, `"\"x` stays one open string, while the
specification-faithful variant closes it at the escaped quote. -/
theorem C4_counterexample :
    colouriseSql [34, 92, 34, 120] { backslashEscapes := false } kwNone 0 =
      [SCE_SQL_STRING, SCE_SQL_STRING, SCE_SQL_STRING, SCE_SQL_STRING] ∧
    colouriseSqlClaim [34, 92, 34, 120] { backslashEscapes := false } kwNone 0 =
      [SCE_SQL_STRING, SCE_SQL_STRING, SCE_SQL_STRING, SCE_SQL_IDENTIFIER] ∧
    SCE_SQL_STRING ≠ SCE_SQL_IDENTIFIER := by
  exact ⟨rfl, rfl, by decide⟩

/-- `fwd` does not change the lexer state. -/
theorem fwd_state (n : Nat) (c : SCtx) : (fwd n c).state = c.state := by
  unfold fwd; split <;> rfl

/-- Claim C4 amended: inside a STRING a backslash always escapes (skips)
the following character, whatever the value of
`lexer.sql.backslash.escapes`; inside a CHARACTER it escapes exactly when
the option is on. -/
theorem C4_amended_escape_behaviour :
    (∀ txt n opts kw (c : SCtx), c.state = SCE_SQL_STRING → sctxCh txt c = 92 →
       colStep txt n opts kw c = fwd n c) ∧
    (∀ txt n opts kw (c : SCtx), c.state = SCE_SQL_CHARACTER → sctxCh txt c = 92 →
       opts.backslashEscapes = true → colStep txt n opts kw c = fwd n c) ∧
    (∀ txt n opts kw (c : SCtx), c.state = SCE_SQL_CHARACTER → sctxCh txt c = 92 →
       opts.backslashEscapes = false → colStep txt n opts kw c = c) := by
  refine ⟨?_, ?_, ?_⟩ <;> intro txt n opts kw c hstate hch
  · have hs : (fwd n c).state = SCE_SQL_STRING := by rw [fwd_state, hstate]
    simp [colStep, colTerm, colEnter, hstate, hch, hs,
      SCE_SQL_STRING, SCE_SQL_OPERATOR, SCE_SQL_HEX, SCE_SQL_HEX2, SCE_SQL_BIT,
      SCE_SQL_BIT2, SCE_SQL_NUMBER, SCE_SQL_VARIABLE, SCE_SQL_IDENTIFIER,
      SCE_SQL_QUOTEDIDENTIFIER, SCE_SQL_COMMENT, SCE_SQL_COMMENTLINE,
      SCE_SQL_COMMENTLINEDOC, SCE_SQL_CHARACTER, SCE_SQL_DEFAULT]
  · intro hesc
    have hs : (fwd n c).state = SCE_SQL_CHARACTER := by rw [fwd_state, hstate]
    simp [colStep, colTerm, colEnter, hstate, hch, hs, hesc,
      SCE_SQL_STRING, SCE_SQL_OPERATOR, SCE_SQL_HEX, SCE_SQL_HEX2, SCE_SQL_BIT,
      SCE_SQL_BIT2, SCE_SQL_NUMBER, SCE_SQL_VARIABLE, SCE_SQL_IDENTIFIER,
      SCE_SQL_QUOTEDIDENTIFIER, SCE_SQL_COMMENT, SCE_SQL_COMMENTLINE,
      SCE_SQL_COMMENTLINEDOC, SCE_SQL_CHARACTER, SCE_SQL_DEFAULT]
  · intro hesc
    simp [colStep, colTerm, colEnter, hstate, hch, hesc,
      SCE_SQL_STRING, SCE_SQL_OPERATOR, SCE_SQL_HEX, SCE_SQL_HEX2, SCE_SQL_BIT,
      SCE_SQL_BIT2, SCE_SQL_NUMBER, SCE_SQL_VARIABLE, SCE_SQL_IDENTIFIER,
      SCE_SQL_QUOTEDIDENTIFIER, SCE_SQL_COMMENT, SCE_SQL_COMMENTLINE,
      SCE_SQL_COMMENTLINEDOC, SCE_SQL_CHARACTER, SCE_SQL_DEFAULT]

/-- Witness for the amended C4 statement at a concrete context. -/
theorem C4_amended_escape_behaviour_witness :
    colStep [92] 1 {} kwNone ⟨0, SCE_SQL_STRING, []⟩ =
      fwd 1 ⟨0, SCE_SQL_STRING, []⟩ :=
  C4_amended_escape_behaviour.1 [92] 1 {} kwNone ⟨0, SCE_SQL_STRING, []⟩ rfl rfl

/-! ## C2: fold-level invariants -/

theorem toU32_lt (x : Int) : toU32 x < 4294967296 := by
  unfold toU32
  have h1 : 0 ≤ x % 4294967296 := Int.emod_nonneg x (by norm_num)
  have h2 : x % 4294967296 < 4294967296 := Int.emod_lt_of_pos x (by norm_num)
  omega

theorem toU32_ofU32 (v : Nat) : toU32 (ofU32 v) = v % 4294967296 := by
  unfold toU32 ofU32
  have h2 : v % 4294967296 < 4294967296 := Nat.mod_lt _ (by norm_num)
  split
  · omega
  · omega

theorem toU32_cOr (a b : Int) : toU32 (cOr a b) = toU32 a ||| toU32 b := by
  unfold cOr
  rw [toU32_ofU32]
  have ha := toU32_lt a
  have hb := toU32_lt b
  have : toU32 a ||| toU32 b < 4294967296 := by
    have h32 : (4294967296 : Nat) = 2 ^ 32 := by norm_num
    rw [h32] at ha hb ⊢
    exact Nat.or_lt_two_pow ha hb
  omega

theorem testBit_toU32_cOr (a b : Int) (k : Nat) :
    (toU32 (cOr a b)).testBit k = ((toU32 a).testBit k || (toU32 b).testBit k) := by
  rw [toU32_cOr, Nat.testBit_lor]

/-- The shifted `levelNext << 16` contributes nothing to bit 13. -/
theorem testBit13_cShl16 (x : Int) : (toU32 (cShl16 x)).testBit 13 = false := by
  unfold cShl16
  rw [toU32_ofU32]
  have h1 : (4294967296 : Nat) = 2 ^ 32 := by norm_num
  rw [h1, Nat.testBit_mod_two_pow, Nat.testBit_shiftLeft]
  simp

/-- Bit 13 (`SC_FOLDLEVELHEADERFLAG`) of a packed fold word is set iff
`levelUse < levelNext`, provided `levelUse` is within the level field. -/
theorem packLev_bit13 (lu ln : Int) (w : Bool) (h0 : 0 ≤ lu) (h1 : lu < 8192) :
    (toU32 (packLev lu ln w)).testBit 13 = decide (lu < ln) := by
  have hlu : (toU32 lu).testBit 13 = false := by
    have hsmall : toU32 lu < 2 ^ 13 := by
      unfold toU32
      rw [Int.emod_eq_of_lt h0 (by omega)]
      omega
    exact Nat.testBit_lt_two_pow hsmall
  have hwhite : (toU32 SC_FOLDLEVELWHITEFLAG).testBit 13 = false := by decide
  have hheader : (toU32 SC_FOLDLEVELHEADERFLAG).testBit 13 = true := by decide
  unfold packLev
  by_cases hlt : lu < ln
  · rw [if_pos hlt, testBit_toU32_cOr, hheader]
    simp [hlt]
  · rw [if_neg hlt]
    cases w
    · simp only [Bool.false_eq_true, if_false]
      rw [testBit_toU32_cOr, testBit13_cShl16, hlu]
      simp [hlt]
    · simp only [if_true]
      rw [testBit_toU32_cOr, testBit_toU32_cOr, testBit13_cShl16, hlu, hwhite]
      simp [hlt]

/-- Every entry `foldStep` records beyond those already present is a
`packLev`-shaped store. -/
theorem foldStep_recorded (txt styles : List Nat) (opts : FoldOpts)
    (icl : Int → Bool) (levels0 : Nat → Int) (endPos : Nat)
    (st : FSt) (i : Nat) :
    (foldStep txt styles opts icl levels0 endPos st i).recorded = st.recorded ∨
    ∃ line lu ln w,
      (foldStep txt styles opts icl levels0 endPos st i).recorded =
        st.recorded ++ [⟨line, lu, ln, packLev lu ln w⟩] := by
  unfold foldStep foldFinish
  set p := foldPre txt styles opts icl st i
  split
  · dsimp only
    split
    · exact Or.inr ⟨st.lineCurrent, p.levelCurrent, p.levelNext, _, rfl⟩
    · exact Or.inl rfl
  · exact Or.inl rfl

/-- Claim C2 amended: for every stored fold word the HEADER flag is set
iff `nextLevel > level` — provided the line's `levelUse` lies within the
12-bit level field (`0 ≤ levelUse < 0x2000`), which holds for any input
that does not underflow or overflow the counters.  The second half of the
original claim (`level ≥ SC_FOLDLEVELBASE` always) is false, see the
counterexample: only the `end`/`endif` branch clamps at the base. -/
theorem C2_amended_header_iff (txt styles : List Nat) (fold : Bool)
    (opts : FoldOpts) (icl : Int → Bool) (levels0 : Nat → Int)
    (lineStart0 startPos length initStyle : Nat) (e : FoldEntry)
    (he : e ∈ foldSql txt styles fold opts icl levels0 lineStart0
      startPos length initStyle)
    (h0 : 0 ≤ e.levelUse) (h1 : e.levelUse < 8192) :
    (toU32 e.lev).testBit 13 = true ↔ e.levelUse < e.levelNext := by
  have key : ∀ (l : List Nat) (st : FSt),
      (∀ x ∈ st.recorded, ∃ w, x.lev = packLev x.levelUse x.levelNext w) →
      ∀ x ∈ (l.foldl (foldStep txt styles opts icl levels0
          (startPos + length)) st).recorded,
        ∃ w, x.lev = packLev x.levelUse x.levelNext w := by
    intro l
    induction l with
    | nil => intro st h x hx; exact h x hx
    | cons a l ih =>
      intro st h x hx
      refine ih (foldStep txt styles opts icl levels0 (startPos + length) st a) ?_ x hx
      intro y hy
      rcases foldStep_recorded txt styles opts icl levels0 (startPos + length) st a
        with hrec | ⟨line, lu, ln, w, hrec⟩
      · exact h y (hrec ▸ hy)
      · rw [hrec] at hy
        rcases List.mem_append.mp hy with hy' | hy'
        · exact h y hy'
        · rcases List.mem_singleton.mp hy' with rfl
          exact ⟨w, rfl⟩
  have hshape : ∃ w, e.lev = packLev e.levelUse e.levelNext w := by
    unfold foldSql at he
    split at he
    · simp at he
    · exact key _ _ (by intro x hx; simp at hx) e he
  rcases hshape with ⟨w, hsh⟩
  rw [hsh, packLev_bit13 _ _ _ h0 h1]
  simp


/-- Witness for the amended C2 statement: the second fold entry of the
`)`-newline-`x` document. -/
theorem C2_amended_header_iff_witness :
    (⟨1, 1023, 1023, 67044351⟩ : FoldEntry) ∈ foldSql [41, 10, 120]
        (colouriseSql [41, 10, 120] {} kwNone 0) true {} (fun _ => false)
        (fun _ => 0) 0 0 3 0 ∧
    ((toU32 (67044351 : Int)).testBit 13 = true ↔ (1023 : Int) < 1023) := by
  have hmem : (⟨1, 1023, 1023, 67044351⟩ : FoldEntry) ∈ foldSql [41, 10, 120]
      (colouriseSql [41, 10, 120] {} kwNone 0) true {} (fun _ => false)
      (fun _ => 0) 0 0 3 0 := by
    rw [show foldSql [41, 10, 120] (colouriseSql [41, 10, 120] {} kwNone 0) true {}
          (fun _ => false) (fun _ => 0) 0 0 3 0 =
        [⟨0, 1024, 1023, 67044352⟩, ⟨1, 1023, 1023, 67044351⟩] from rfl]
    exact List.mem_cons_of_mem _ (List.mem_singleton.mpr rfl)
  exact ⟨hmem, C2_amended_header_iff [41, 10, 120]
    (colouriseSql [41, 10, 120] {} kwNone 0) true {} (fun _ => false)
    (fun _ => 0) 0 0 3 0 ⟨1, 1023, 1023, 67044351⟩ hmem (by decide) (by decide)⟩

/-- Claim C2 asserts (among other things) that every stored fold word has
its level at least `SC_FOLDLEVELBASE`.  It is false: only the
`end`/`endif` branch clamps; an unmatched `)` drives the stored level one
below the base on the following line. -/
theorem C2_counterexample :
    foldSql [41, 10, 120] (colouriseSql [41, 10, 120] {} kwNone 0) true {}
        (fun _ => false) (fun _ => 0) 0 0 3 0 =
      [⟨0, 1024, 1023, 67044352⟩, ⟨1, 1023, 1023, 67044351⟩] ∧
    (1023 : Int) < SC_FOLDLEVELBASE ∧ toU32 67044351 &&& 0xFFF = 1023 := by
  exact ⟨rfl, by decide, by decide⟩

/-! ## C1: Execute over the pattern's own text -/

theorem isinset_chSet_self (b c : Nat) : isinset (chSet b c) c = true := by
  unfold isinset chSet
  rw [Nat.testBit_lor, Nat.shiftLeft_eq, one_mul, Nat.testBit_two_pow_self]
  simp

theorem isinset_chSet_mono (b c d : Nat) (h : isinset b d = true) :
    isinset (chSet b c) d = true := by
  unfold isinset chSet at *
  rw [Nat.testBit_lor, h]
  simp

theorem isinset_chSetWithCase_self (b c : Nat) (caseSensitive : Bool) :
    isinset (chSetWithCase b c caseSensitive) c = true := by
  unfold chSetWithCase
  split
  · exact isinset_chSet_self b c
  · split
    · exact isinset_chSet_mono _ _ _ (isinset_chSet_self b c)
    · split
      · exact isinset_chSet_mono _ _ _ (isinset_chSet_self b c)
      · exact isinset_chSet_self b c

/-- An ordinary character compiles to one pushed instruction. -/
theorem goC_step_ordinary (isw : Nat → Bool) (caseSensitive posix : Bool)
    (fuel : Nat) (c : Nat) (rest : List Nat) (st : CSt)
    (hc : ordinaryChar c = true) (hsz : ¬ progSize st.prog > mpMax) :
    goC isw caseSensitive posix (fuel + 1) (c :: rest) st =
      goC isw caseSensitive posix fuel rest (pushI st (instrOf isw caseSensitive c)) := by
  unfold ordinaryChar at hc
  simp only [decide_eq_true_eq, not_or] at hc
  obtain ⟨h0, h46, h92, h91, h42, h43, h63, h94, h36, h40, h41⟩ := hc
  unfold instrOf
  simp only [goC, hsz, if_false, h0, h46, h92, h91, h42, h43, h63, h94, h36,
    h40, h41, if_neg, false_or, false_and, and_false, if_false, ite_false,
    reduceIte]
  split <;> rfl

/-- The "Pattern too long" guard. -/
theorem goC_toolong (isw : Nat → Bool) (caseSensitive posix : Bool)
    (fuel : Nat) (c : Nat) (rest : List Nat) (st : CSt)
    (hsz : progSize st.prog > mpMax) :
    goC isw caseSensitive posix (fuel + 1) (c :: rest) st =
      .error "Pattern too long" := by
  simp [goC, hsz]

/-- A pattern of ordinary characters compiles to the literal program. -/
theorem goC_ordinary (isw : Nat → Bool) (caseSensitive posix : Bool) :
    ∀ (cs : List Nat) (extra : Nat) (st : CSt) (prog : List Instr),
      (∀ c ∈ cs, ordinaryChar c = true) → st.tagstk = [] →
      goC isw caseSensitive posix (cs.length + 1 + extra) cs st = .ok prog →
      prog = st.prog ++ cs.map (instrOf isw caseSensitive) ++ [.stop] := by
  intro cs
  induction cs with
  | nil =>
    intro extra st prog _ htag hok
    rw [show (([] : List Nat).length + 1 + extra) = extra + 1 from by simp [Nat.add_comm]] at hok
    simp only [goC, htag, ne_eq, not_true_eq_false, if_false, reduceIte,
      Except.ok.injEq] at hok
    rw [← hok]
    simp
  | cons c rest ih =>
    intro extra st prog hord htag hok
    by_cases hsz : progSize st.prog > mpMax
    · rw [show (c :: rest).length + 1 + extra = (rest.length + 1 + extra) + 1 from by
          simp; omega] at hok
      rw [goC_toolong isw caseSensitive posix _ c rest st hsz] at hok
      cases hok
    · rw [show (c :: rest).length + 1 + extra = (rest.length + 1 + extra) + 1 from by
          simp; omega] at hok
      rw [goC_step_ordinary isw caseSensitive posix _ c rest st
        (hord c (List.mem_cons_self c rest)) hsz] at hok
      have := ih extra (pushI st (instrOf isw caseSensitive c)) prog
        (fun x hx => hord x (List.mem_cons_of_mem c hx)) htag hok
      rw [this]
      simp [pushI]

/-- `PMatch` on a literal program (only `CHR`/`CCL` singletons) consumes
exactly the characters it was compiled from. -/
theorem pmatch_literal (isw : Nat → Bool) (caseSensitive : Bool) (txt : List Nat)
    (bolP endp : Int) :
    ∀ (cs : List Nat) (lp : Int) (extra : Nat) (moveDir : Int) (hasOff : Bool)
      (st : MState),
      (∀ k : Nat, k < cs.length → charAt txt (lp + k) = cs.getD k 0) →
      lp + cs.length ≤ endp →
      pmatch isw txt bolP endp (cs.length + 1 + extra)
        (cs.map (instrOf isw caseSensitive) ++ [.stop]) lp moveDir hasOff st =
      ⟨some (lp + cs.length), st, none⟩ := by
  intro cs
  induction cs with
  | nil =>
    intro lp extra moveDir hasOff st hch hb
    rw [show ([] : List Nat).length + 1 + extra = extra + 1 from by
      simp [Nat.add_comm]]
    simp [pmatch]
  | cons c rest ih =>
    intro lp extra moveDir hasOff st hch hb
    rw [show (c :: rest).length + 1 + extra = (rest.length + 1 + extra) + 1 from by
      simp; omega]
    have hc0 : charAt txt lp = c := by
      have := hch 0 (by simp)
      simpa using this
    have hch' : ∀ k : Nat, k < rest.length → charAt txt (lp + 1 + k) = rest.getD k 0 := by
      intro k hk
      have := hch (k + 1) (by simp; omega)
      rw [show (lp + ((k : Nat) + 1 : Nat)) = lp + 1 + k from by push_cast; ring] at this
      simpa using this
    have hb' : lp + 1 + rest.length ≤ endp := by
      have hcast : ((c :: rest).length : Int) = rest.length + 1 := by
        push_cast [List.length_cons]; ring
      omega
    have happ := ih (lp + 1) extra moveDir hasOff st hch' hb'
    have hres : lp + 1 + (rest.length : Int) = lp + ((c :: rest).length : Int) := by
      push_cast [List.length_cons]; ring
    rw [hres] at happ
    by_cases hcase : (caseSensitive = true ∨ ¬ isw c = true)
    · have hinstr : instrOf isw caseSensitive c = .chr c := by
        unfold instrOf
        exact if_pos hcase
      rw [List.map_cons, hinstr]
      simp only [pmatch, List.cons_append, hc0, ne_eq, not_true_eq_false, if_false,
        reduceIte]
      exact happ
    · have hinstr : instrOf isw caseSensitive c = .ccl (chSetWithCase 0 c false) := by
        unfold instrOf
        exact if_neg hcase
      have hlt : lp < endp := by
        have hcast : ((c :: rest).length : Int) = rest.length + 1 := by
          push_cast [List.length_cons]; ring
        have hr : (0 : Int) ≤ rest.length := Int.natCast_nonneg _
        omega
      rw [List.map_cons, hinstr]
      simp only [pmatch, List.cons_append, hc0, not_lt.mpr hlt,
        isinset_chSetWithCase_self, ne_eq, not_true_eq_false, if_false, reduceIte,
        not_le.mpr hlt, Bool.not_true]
      exact happ

/-- The scan loop stops at the first position where `PMatch` succeeds and
stores the group-0 bounds. -/
theorem execScan_first_hit (isw : Nat → Bool) (txt : List Nat) (bolP endp : Int)
    (pfuel : Nat) (prog : List Instr) (fuelRest : Nat) (lp : Int) (st st' : MState)
    (ep : Int)
    (h : pmatch isw txt bolP endp pfuel prog lp 1 true st = ⟨some ep, st', none⟩)
    (hlt : lp < endp) :
    execScan isw txt bolP endp pfuel prog (fuelRest + 1) lp st =
      ⟨1, { st' with
            bopat := fun k => if k = 0 then lp else st'.bopat k,
            eopat := fun k => if k = 0 then ep else st'.eopat k }⟩ := by
  simp [execScan, hlt, h]

/-- Claim C1 amended: restricted to patterns made of ordinary characters
(no metacharacter and no NUL byte), a successful compile does make
`Execute` over the pattern's own text return a match with
`bopat[0] = 0` and `eopat[0] = length`.  (The original unrestricted claim
is refuted by the counterexample: e.g. `\d` does not match its own
spelling, `$` matches its own text at `[1,1)`, not `[0,1)`.) -/
theorem C1_amended_selfmatch (isw : Nat → Bool) (caseSensitive posix : Bool)
    (cs : List Nat) (hne : cs ≠ []) (hord : ∀ c ∈ cs, ordinaryChar c = true)
    (prog : List Instr) (hok : doCompile isw caseSensitive posix cs = .ok prog)
    (extra : Nat) :
    (execute isw cs (cs.length + 1 + extra) prog 0 cs.length).ret = 1 ∧
    (execute isw cs (cs.length + 1 + extra) prog 0 cs.length).st.bopat 0 = 0 ∧
    (execute isw cs (cs.length + 1 + extra) prog 0 cs.length).st.eopat 0
      = cs.length := by
  have hok' : goC isw caseSensitive posix (cs.length + 1 + 0) cs ⟨[], 0, [], 1, true⟩
      = .ok prog := by
    simpa [doCompile] using hok
  have hprog : prog = cs.map (instrOf isw caseSensitive) ++ [.stop] := by
    simpa using goC_ordinary isw caseSensitive posix cs 0 ⟨[], 0, [], 1, true⟩ prog
      hord rfl hok'
  subst hprog
  obtain ⟨c0, rest, rfl⟩ := List.exists_cons_of_ne_nil hne
  have hch : ∀ k : Nat, k < (c0 :: rest).length →
      charAt (c0 :: rest) ((0 : Int) + k) = (c0 :: rest).getD k 0 := by
    intro k hk
    unfold charAt
    rw [if_pos]
    · simp [List.getD_eq_getElem?_getD]
    · constructor
      · positivity
      · omega
  have hb : (0 : Int) + ((c0 :: rest).length : Int) ≤ ((c0 :: rest).length : Int) := by
    omega
  have hpm := pmatch_literal isw caseSensitive (c0 :: rest) 0
    ((c0 :: rest).length : Int) (c0 :: rest) 0 extra 1 true clearM hch hb
  rw [zero_add] at hpm
  have hlen1 : (((c0 :: rest).length : Int) - 0).toNat = rest.length + 1 := by
    simp
  have hlt0 : (0 : Int) < ((c0 :: rest).length : Int) := by
    push_cast [List.length_cons]
    positivity
  have hscan := execScan_first_hit isw (c0 :: rest) 0 ((c0 :: rest).length : Int)
    ((c0 :: rest).length + 1 + extra) ((c0 :: rest).map (instrOf isw caseSensitive) ++ [.stop])
    ((((c0 :: rest).length : Int) - 0).toNat) 0 clearM clearM ((c0 :: rest).length : Int)
    hpm hlt0
  have hc0 : charAt (c0 :: rest) 0 = c0 := by
    have := hch 0 (by simp)
    simpa using this
  by_cases hcase : (caseSensitive = true ∨ ¬ isw c0 = true)
  · have hinstr : instrOf isw caseSensitive c0 = .chr c0 := by
      unfold instrOf
      exact if_pos hcase
    have hfind : findChar (c0 :: rest) c0 (rest.length + 1) 0 = 0 := by
      unfold findChar
      simp [hc0]
    unfold execute
    rw [List.map_cons, hinstr]
    rw [List.map_cons, hinstr, hlen1] at hscan
    simp only [List.cons_append] at hscan
    simp only [List.cons_append, List.headD_cons, hlen1, hfind,
      not_le.mpr hlt0, if_neg, ite_false, reduceIte]
    rw [hscan]
    refine ⟨rfl, by simp, by simp⟩
  · have hinstr : instrOf isw caseSensitive c0 = .ccl (chSetWithCase 0 c0 false) := by
      unfold instrOf
      exact if_neg hcase
    unfold execute
    rw [List.map_cons, hinstr]
    rw [List.map_cons, hinstr, hlen1] at hscan
    simp only [List.cons_append] at hscan
    simp only [List.cons_append, List.headD_cons, hlen1]
    rw [hscan]
    refine ⟨rfl, by simp, by simp⟩

/-- Witness for the amended C1 statement: the pattern `foo`. -/
theorem C1_amended_selfmatch_witness :
    (execute iswDefault [102, 111, 111] 4
      [.chr 102, .chr 111, .chr 111, .stop] 0 3).ret = 1 ∧
    (execute iswDefault [102, 111, 111] 4
      [.chr 102, .chr 111, .chr 111, .stop] 0 3).st.bopat 0 = 0 ∧
    (execute iswDefault [102, 111, 111] 4
      [.chr 102, .chr 111, .chr 111, .stop] 0 3).st.eopat 0 = 3 :=
  C1_amended_selfmatch iswDefault true false [102, 111, 111] (by decide)
    (by decide) [.chr 102, .chr 111, .chr 111, .stop] (by rfl) 0

/-! ## C9: group 0 is written only on success -/

theorem tagsOk_tail (ins : Instr) (rest : List Instr) (h : tagsOk (ins :: rest)) :
    tagsOk rest :=
  ⟨fun n hn => h.1 n (List.mem_cons_of_mem _ hn),
   fun n hn => h.2 n (List.mem_cons_of_mem _ hn)⟩

theorem tagsOk_drop (k : Nat) (l : List Instr) (h : tagsOk l) : tagsOk (l.drop k) :=
  ⟨fun n hn => h.1 n (List.mem_of_mem_drop hn),
   fun n hn => h.2 n (List.mem_of_mem_drop hn)⟩

/-- Neither `PMatch` nor its closure loop ever writes the group-0 capture
bounds, as long as every `BOT`/`EOT` operand in the program is non-zero. -/
theorem pmatch_group0 (isw : Nat → Bool) (txt : List Nat) (bolP endp : Int) :
    ∀ fuel : Nat,
      (∀ (prog : List Instr) (lp moveDir : Int) (hasOff : Bool) (st : MState),
        tagsOk prog →
        (pmatch isw txt bolP endp fuel prog lp moveDir hasOff st).st.bopat 0
          = st.bopat 0 ∧
        (pmatch isw txt bolP endp fuel prog lp moveDir hasOff st).st.eopat 0
          = st.eopat 0) ∧
      (∀ (tail : List Instr) (are llp lpCur : Int) (e : Option Int)
         (isLazy : Bool) (st : MState),
        tagsOk tail →
        (cloLoop isw txt bolP endp fuel tail are llp lpCur e isLazy st).st.bopat 0
          = st.bopat 0 ∧
        (cloLoop isw txt bolP endp fuel tail are llp lpCur e isLazy st).st.eopat 0
          = st.eopat 0) := by
  intro fuel
  induction fuel with
  | zero =>
    constructor
    · intro prog lp moveDir hasOff st _
      simp [pmatch]
    · intro tail are llp lpCur e isLazy st _
      simp [cloLoop]
  | succ fuel ih =>
    obtain ⟨ihp, ihc⟩ := ih
    constructor
    · intro prog lp moveDir hasOff st htags
      cases prog with
      | nil => simp [pmatch]
      | cons ins rest =>
        have htr : tagsOk rest := tagsOk_tail ins rest htags
        cases ins with
        | chr c =>
          simp only [pmatch]
          split
          · exact ⟨rfl, rfl⟩
          · exact ihp rest _ _ _ _ htr
        | any =>
          simp only [pmatch]
          split
          · exact ⟨rfl, rfl⟩
          · exact ihp rest _ _ _ _ htr
        | ccl bits =>
          simp only [pmatch]
          split
          · exact ⟨rfl, rfl⟩
          · split
            · exact ⟨rfl, rfl⟩
            · exact ihp rest _ _ _ _ htr
        | bol =>
          simp only [pmatch]
          split
          · exact ⟨rfl, rfl⟩
          · exact ihp rest _ _ _ _ htr
        | eol =>
          simp only [pmatch]
          split
          · exact ⟨rfl, rfl⟩
          · exact ihp rest _ _ _ _ htr
        | bot n =>
          have hn : n ≠ 0 := htags.1 n (List.mem_cons_self _ _)
          simp only [pmatch]
          obtain ⟨h1, h2⟩ :=
            ihp rest lp moveDir hasOff
              { st with bopat := fun k => if k = n then lp else st.bopat k } htr
          refine ⟨?_, h2⟩
          rw [h1]
          simp only []
          exact if_neg fun h => hn h.symm
        | eot n =>
          have hn : n ≠ 0 := htags.2 n (List.mem_cons_self _ _)
          simp only [pmatch]
          obtain ⟨h1, h2⟩ :=
            ihp rest lp moveDir hasOff
              { st with eopat := fun k => if k = n then lp else st.eopat k } htr
          refine ⟨h1, ?_⟩
          rw [h2]
          simp only []
          exact if_neg fun h => hn h.symm
        | bow =>
          simp only [pmatch]
          split
          · exact ⟨rfl, rfl⟩
          · exact ihp rest _ _ _ _ htr
        | eow =>
          simp only [pmatch]
          split
          · exact ⟨rfl, rfl⟩
          · exact ihp rest _ _ _ _ htr
        | mws =>
          simp only [pmatch]
          split
          · exact ⟨rfl, rfl⟩
          · exact ihp rest _ _ _ _ htr
        | mwe =>
          simp only [pmatch]
          split
          · exact ⟨rfl, rfl⟩
          · exact ihp rest _ _ _ _ htr
        | mtwe =>
          simp only [pmatch]
          split
          · exact ⟨rfl, rfl⟩
          · exact ihp rest _ _ _ _ htr
        | mtweOpt =>
          simp only [pmatch]
          split
          · exact ⟨rfl, rfl⟩
          · exact ihp rest _ _ _ _ htr
        | ref n =>
          simp only [pmatch]
          split
          · exact ihp rest _ _ _ _ htr
          · exact ⟨rfl, rfl⟩
        | clo =>
          have htd : tagsOk (rest.drop 2) := tagsOk_drop 2 rest htr
          simp only [pmatch]
          split
          · exact ihc (rest.drop 2) _ _ _ none _ _ htd
          · exact ihc (rest.drop 2) _ _ _ none _ _ htd
          · exact ihc (rest.drop 2) _ _ _ none _ _ htd
          · exact ⟨rfl, rfl⟩
        | clq =>
          have htd : tagsOk (rest.drop 2) := tagsOk_drop 2 rest htr
          simp only [pmatch]
          split
          · exact ihc (rest.drop 2) _ _ _ none _ _ htd
          · exact ihc (rest.drop 2) _ _ _ none _ _ htd
          · exact ihc (rest.drop 2) _ _ _ none _ _ htd
          · exact ⟨rfl, rfl⟩
        | lclo =>
          have htd : tagsOk (rest.drop 2) := tagsOk_drop 2 rest htr
          simp only [pmatch]
          split
          · exact ihc (rest.drop 2) _ _ _ none _ _ htd
          · exact ihc (rest.drop 2) _ _ _ none _ _ htd
          · exact ihc (rest.drop 2) _ _ _ none _ _ htd
          · exact ⟨rfl, rfl⟩
        | stop => exact ⟨rfl, rfl⟩
    · intro tail are llp lpCur e isLazy st htags
      simp only [cloLoop]
      split
      · obtain ⟨hp1, hp2⟩ := ihp tail llp (-1) true st htags
        split
        · split
          · exact ⟨hp1, hp2⟩
          · split
            · exact ⟨hp1, hp2⟩
            · obtain ⟨hc1, hc2⟩ :=
                ihc tail are _ llp _ isLazy
                  (pmatch isw txt bolP endp fuel tail llp (-1) true st).st htags
              exact ⟨hc1.trans hp1, hc2.trans hp2⟩
        · split
          · exact ⟨hp1, hp2⟩
          · obtain ⟨hc1, hc2⟩ :=
              ihc tail are _ lpCur e isLazy
                (pmatch isw txt bolP endp fuel tail llp (-1) true st).st htags
            exact ⟨hc1.trans hp1, hc2.trans hp2⟩
      · split
        · exact ihp tail lpCur 1 false st htags
        · exact ⟨rfl, rfl⟩

theorem tagsOk_iff (l : List Instr) :
    tagsOk l ↔ ∀ x ∈ l, ∀ n : Nat,
      (x = Instr.bot n → n ≠ 0) ∧ (x = Instr.eot n → n ≠ 0) := by
  constructor
  · intro h x hx n
    exact ⟨fun he => h.1 n (he ▸ hx), fun he => h.2 n (he ▸ hx)⟩
  · intro h
    exact ⟨fun n hn => (h _ hn n).1 rfl, fun n hn => (h _ hn n).2 rfl⟩

theorem tagsOk_snoc (l : List Instr) (ins : Instr) (h : tagsOk l)
    (hb : ∀ n : Nat, ins = .bot n → n ≠ 0) (he : ∀ n : Nat, ins = .eot n → n ≠ 0) :
    tagsOk (l ++ [ins]) := by
  constructor <;> intro n hn <;> rcases List.mem_append.mp hn with h' | h'
  · exact h.1 n h'
  · exact hb n (List.mem_singleton.mp h').symm
  · exact h.2 n h'
  · exact he n (List.mem_singleton.mp h').symm

/-- Every program a successful `DoCompile` scan produces satisfies
`tagsOk`, given the compiler-state invariants: program so far ok, no zero
tag on the stack, `tagc ≥ 1`. -/
theorem goC_tags (isw : Nat → Bool) (caseSensitive posix : Bool) :
    ∀ (fuel : Nat) (cs : List Nat) (st : CSt) (prog : List Instr),
      tagsOk st.prog → (∀ t ∈ st.tagstk, t ≠ 0) → 1 ≤ st.tagc →
      goC isw caseSensitive posix fuel cs st = .ok prog → tagsOk prog := by
  intro fuel
  induction fuel with
  | zero =>
    intro cs st prog _ _ _ h
    simp [goC] at h
  | succ fuel ih =>
    intro cs st prog hp htk htc hok
    cases cs with
    | nil =>
      simp only [goC] at hok
      split at hok
      · exact nomatch hok
      · rw [Except.ok.injEq] at hok
        subst hok
        exact tagsOk_snoc _ _ hp (fun n h => nomatch h) (fun n h => nomatch h)
    | cons c rest =>
      rw [goC.eq_3] at hok
      by_cases h1 : progSize st.prog > mpMax
      · rw [if_pos h1] at hok
        exact nomatch hok
      rw [if_neg h1] at hok
      by_cases h2 : c = 46
      · rw [if_pos h2] at hok
        refine ih _ _ _ ?_ ?_ ?_ hok
        · exact tagsOk_snoc _ _ hp (fun n h => nomatch h) (fun n h => nomatch h)
        · exact htk
        · exact htc
      rw [if_neg h2] at hok
      by_cases h3 : c = 94
      · rw [if_pos h3] at hok
        refine ih _ _ _ ?_ ?_ ?_ hok
        · refine tagsOk_snoc _ _ hp ?_ ?_ <;>
            (intro n h; split at h <;> exact nomatch h)
        · exact htk
        · exact htc
      rw [if_neg h3] at hok
      by_cases h4 : c = 36
      · rw [if_pos h4] at hok
        refine ih _ _ _ ?_ ?_ ?_ hok
        · refine tagsOk_snoc _ _ hp ?_ ?_ <;>
            (intro n h; split at h <;> exact nomatch h)
        · exact htk
        · exact htc
      rw [if_neg h4] at hok
      by_cases h5 : c = 91
      · rw [if_pos h5] at hok
        cases hscan : cclScan isw caseSensitive ((cclPrelude rest).rem.length + 1)
            (cclPrelude rest).rem (cclPrelude rest).bits (cclPrelude rest).prev with
        | error e =>
          rw [hscan] at hok
          exact nomatch hok
        | ok p =>
          obtain ⟨bits, r1⟩ := p
          rw [hscan] at hok
          refine ih _ _ _ ?_ ?_ ?_ hok
          · exact tagsOk_snoc _ _ hp (fun n h => nomatch h) (fun n h => nomatch h)
          · exact htk
          · exact htc
      rw [if_neg h5] at hok
      by_cases h6 : c = 42 ∨ c = 43 ∨ c = 63
      · rw [if_pos h6] at hok
        by_cases hat : st.atStart = true
        · rw [if_pos hat] at hok
          exact nomatch hok
        rw [if_neg hat] at hok
        by_cases hcl : lastOp st = .clo ∨ lastOp st = .lclo
        · rw [if_pos hcl] at hok
          refine ih _ _ _ ?_ ?_ ?_ hok
          · exact hp
          · exact htk
          · exact htc
        rw [if_neg hcl] at hok
        by_cases hil : illegalClosureOp (lastOp st) = true
        · rw [if_pos hil] at hok
          exact nomatch hok
        rw [if_neg hil] at hok
        by_cases hmt : c = 63 ∧ lastOp st = .mtwe
        · rw [if_pos hmt] at hok
          refine ih _ _ _ ?_ ?_ ?_ hok
          · rw [tagsOk_iff]
            intro x hx n
            rcases List.mem_or_eq_of_mem_set hx with hx' | rfl
            · exact (tagsOk_iff _).mp hp x hx' n
            · exact ⟨(fun h => nomatch h), (fun h => nomatch h)⟩
          · exact htk
          · exact htc
        rw [if_neg hmt] at hok
        refine ih _ _ _ ?_ ?_ ?_ hok
        · rw [tagsOk_iff]
          intro x hx n
          have hmem1 : ∀ y ∈ (if c = 43 then st.prog ++ st.prog.drop st.sp
              else st.prog), y ∈ st.prog := by
            intro y hy
            split at hy
            · rcases List.mem_append.mp hy with hy' | hy'
              · exact hy'
              · exact List.mem_of_mem_drop hy'
            · exact hy
          rcases List.mem_append.mp hx with hx1 | hx1
          · rcases List.mem_append.mp hx1 with hx2 | hx2
            · rcases List.mem_append.mp hx2 with hx3 | hx3
              · exact (tagsOk_iff _).mp hp x (hmem1 x (List.mem_of_mem_take hx3)) n
              · rcases List.mem_singleton.mp hx3 with rfl
                refine ⟨fun h => ?_, fun h => ?_⟩ <;>
                  (split at h
                   · exact nomatch h
                   · split at h <;> exact nomatch h)
            · exact (tagsOk_iff _).mp hp x (hmem1 x (List.mem_of_mem_drop hx2)) n
          · rcases List.mem_singleton.mp hx1 with rfl
            exact ⟨(fun h => nomatch h), (fun h => nomatch h)⟩
        · exact htk
        · exact htc
      rw [if_neg h6] at hok
      by_cases h7 : c = 92
      · rw [if_pos h7] at hok
        by_cases b1 : rest.headD 0 = 60
        · rw [if_pos b1] at hok
          refine ih _ _ _ ?_ ?_ ?_ hok
          · exact tagsOk_snoc _ _ hp (fun n h => nomatch h) (fun n h => nomatch h)
          · exact htk
          · exact htc
        rw [if_neg b1] at hok
        by_cases b2 : rest.headD 0 = 62
        · rw [if_pos b2] at hok
          by_cases bb : lastOp st = .bow
          · rw [if_pos bb] at hok
            exact nomatch hok
          · rw [if_neg bb] at hok
            refine ih _ _ _ ?_ ?_ ?_ hok
            · exact tagsOk_snoc _ _ hp (fun n h => nomatch h) (fun n h => nomatch h)
            · exact htk
            · exact htc
        rw [if_neg b2] at hok
        by_cases b3 : rest.headD 0 = 104
        · rw [if_pos b3] at hok
          refine ih _ _ _ ?_ ?_ ?_ hok
          · exact tagsOk_snoc _ _ hp (fun n h => nomatch h) (fun n h => nomatch h)
          · exact htk
          · exact htc
        rw [if_neg b3] at hok
        by_cases b4 : rest.headD 0 = 72
        · rw [if_pos b4] at hok
          by_cases bb : lastOp st = .mws
          · rw [if_pos bb] at hok
            exact nomatch hok
          · rw [if_neg bb] at hok
            refine ih _ _ _ ?_ ?_ ?_ hok
            · exact tagsOk_snoc _ _ hp (fun n h => nomatch h) (fun n h => nomatch h)
            · exact htk
            · exact htc
        rw [if_neg b4] at hok
        by_cases b5 : rest.headD 0 = 105
        · rw [if_pos b5] at hok
          refine ih _ _ _ ?_ ?_ ?_ hok
          · exact tagsOk_snoc _ _ hp (fun n h => nomatch h) (fun n h => nomatch h)
          · exact htk
          · exact htc
        rw [if_neg b5] at hok
        by_cases b6 : 49 ≤ rest.headD 0 ∧ rest.headD 0 ≤ 57
        · rw [if_pos b6] at hok
          by_cases bc : st.tagstk ≠ [] ∧ st.tagstk.headD 0 = rest.headD 0 - 48
          · rw [if_pos bc] at hok
            exact nomatch hok
          rw [if_neg bc] at hok
          by_cases bd : rest.headD 0 - 48 < st.tagc
          · rw [if_pos bd] at hok
            refine ih _ _ _ ?_ ?_ ?_ hok
            · exact tagsOk_snoc _ _ hp (fun n h => nomatch h) (fun n h => nomatch h)
            · exact htk
            · exact htc
          · rw [if_neg bd] at hok
            exact nomatch hok
        rw [if_neg b6] at hok
        by_cases b7 : ¬posix ∧ rest.headD 0 = 40
        · rw [if_pos b7] at hok
          by_cases bt : st.tagc < MAXTAG
          · rw [if_pos bt] at hok
            refine ih _ _ _ ?_ ?_ ?_ hok
            · refine tagsOk_snoc _ _ hp ?_ (fun n h => nomatch h)
              intro n h
              cases h
              omega
            · intro t ht
              rcases List.mem_cons.mp ht with rfl | ht'
              · omega
              · exact htk t ht'
            · exact Nat.le_succ_of_le htc
          · rw [if_neg bt] at hok
            exact nomatch hok
        rw [if_neg b7] at hok
        by_cases b8 : ¬posix ∧ rest.headD 0 = 41
        · rw [if_pos b8] at hok
          by_cases bb : isBotOp (lastOp st) = true
          · rw [if_pos bb] at hok
            exact nomatch hok
          rw [if_neg bb] at hok
          cases hts : st.tagstk with
          | nil =>
            rw [hts] at hok
            exact nomatch hok
          | cons t ts =>
            rw [hts] at hok
            refine ih _ _ _ ?_ ?_ ?_ hok
            · refine tagsOk_snoc _ _ hp (fun n h => nomatch h) ?_
              intro n h
              cases h
              exact htk _ (hts ▸ List.mem_cons_self _ _)
            · intro u hu
              exact htk u (hts ▸ List.mem_cons_of_mem _ hu)
            · exact htc
        rw [if_neg b8] at hok
        cases hg : (getBackslashExpr isw (rest.headD 0) ((rest.drop 1).headD 0)
            ((rest.drop 2).headD 0) 0).1 with
        | some v =>
          rw [hg] at hok
          refine ih _ _ _ ?_ ?_ ?_ hok
          · exact tagsOk_snoc _ _ hp (fun n h => nomatch h) (fun n h => nomatch h)
          · exact htk
          · exact htc
        | none =>
          rw [hg] at hok
          refine ih _ _ _ ?_ ?_ ?_ hok
          · exact tagsOk_snoc _ _ hp (fun n h => nomatch h) (fun n h => nomatch h)
          · exact htk
          · exact htc
      rw [if_neg h7] at hok
      by_cases h8 : posix ∧ c = 40
      · rw [if_pos h8] at hok
        by_cases bt : st.tagc < MAXTAG
        · rw [if_pos bt] at hok
          refine ih _ _ _ ?_ ?_ ?_ hok
          · refine tagsOk_snoc _ _ hp ?_ (fun n h => nomatch h)
            intro n h
            cases h
            omega
          · intro t ht
            rcases List.mem_cons.mp ht with rfl | ht'
            · omega
            · exact htk t ht'
          · exact Nat.le_succ_of_le htc
        · rw [if_neg bt] at hok
          exact nomatch hok
      rw [if_neg h8] at hok
      by_cases h9 : posix ∧ c = 41
      · rw [if_pos h9] at hok
        by_cases bb : isBotOp (lastOp st) = true
        · rw [if_pos bb] at hok
          exact nomatch hok
        rw [if_neg bb] at hok
        cases hts : st.tagstk with
        | nil =>
          rw [hts] at hok
          exact nomatch hok
        | cons t ts =>
          rw [hts] at hok
          refine ih _ _ _ ?_ ?_ ?_ hok
          · refine tagsOk_snoc _ _ hp (fun n h => nomatch h) ?_
            intro n h
            cases h
            exact htk _ (hts ▸ List.mem_cons_self _ _)
          · intro u hu
            exact htk u (hts ▸ List.mem_cons_of_mem _ hu)
          · exact htc
      rw [if_neg h9] at hok
      by_cases h10 : caseSensitive = true ∨ ¬ isw (if c = 0 then 92 else c) = true
      · rw [if_pos h10] at hok
        refine ih _ _ _ ?_ ?_ ?_ hok
        · exact tagsOk_snoc _ _ hp (fun n h => nomatch h) (fun n h => nomatch h)
        · exact htk
        · exact htc
      · rw [if_neg h10] at hok
        refine ih _ _ _ ?_ ?_ ?_ hok
        · exact tagsOk_snoc _ _ hp (fun n h => nomatch h) (fun n h => nomatch h)
        · exact htk
        · exact htc

/-- Claim C1 asserts that every successfully compiled pattern matches its
own text.  It is false: `\d` compiles to a digit class, and executing it
over the two bytes `\d` finds no match at all. -/
theorem C1_counterexample :
    doCompile iswDefault true false [92, 100] =
      .ok [.ccl 287948901175001088, .stop] ∧
    (execute iswDefault [92, 100] 100 [.ccl 287948901175001088, .stop] 0 2).ret
      = 0 := by
  exact ⟨rfl, rfl⟩

/-! ## C10: Compile with a null pattern -/

/-- Claim C10: a `Compile` call with a null pattern or zero length returns
success and changes nothing when a previous compile succeeded
(`sta == OKP`), and reports "No previous regular expression" otherwise. -/
theorem C10_null_pattern_compile (e : Engine) (isw : Nat → Bool)
    (caseSensitive : Bool) (flags : FOpt) (pat : Option (List Nat))
    (hpat : pat = none ∨ pat = some []) :
    (e.sta = true → compileE e isw caseSensitive flags pat = (none, e)) ∧
    (e.sta = false →
      compileE e isw caseSensitive flags pat =
        (some "No previous regular expression", { e with nfa := [.stop] })) := by
  constructor
  · intro hsta
    rcases hpat with rfl | rfl <;> simp [compileE, hsta]
  · intro hsta
    rcases hpat with rfl | rfl <;> simp [compileE, hsta]

/-- Witness for C10 at concrete engines. -/
theorem C10_null_pattern_compile_witness :
    compileE initEngine iswDefault true ⟨false, 0⟩ none =
      (some "No previous regular expression", { initEngine with nfa := [.stop] }) :=
  (C10_null_pattern_compile initEngine iswDefault true ⟨false, 0⟩ none
    (Or.inl rfl)).2 rfl

/-! ## C8: no valid program means Execute returns 0 -/

/-- Claim C8: when no valid program has been compiled — at construction
the `nfa` is zero-filled (`END` first), and every compile error stores
`END` at `nfa[0]` via `badpat` — every `Execute` call returns 0. -/
theorem C8_invalid_execute_zero :
    (∀ (isw : Nat → Bool) (txt : List Nat) (fuel : Nat) (prog : List Instr)
       (lp endp : Int), prog.headD .stop = .stop →
       (execute isw txt fuel prog lp endp).ret = 0) ∧
    initEngine.nfa.headD .stop = .stop ∧
    (∀ (e : Engine) (isw : Nat → Bool) (caseSensitive : Bool) (flags : FOpt)
       (pat : Option (List Nat)) (msg : String) (e' : Engine),
       compileE e isw caseSensitive flags pat = (some msg, e') →
       e'.nfa.headD .stop = .stop) := by
  refine ⟨?_, rfl, ?_⟩
  · intro isw txt fuel prog lp endp h
    rw [List.headD_eq_head?_getD] at h
    simp [execute, h]
  · intro e isw caseSensitive flags pat msg e' h
    unfold compileE at h
    split at h
    · simp at h
    · split at h
      · split at h
        · simp at h
        · obtain ⟨-, rfl⟩ := Prod.mk.injEq .. ▸ h
          rfl
      · split at h
        · simp at h
        · obtain ⟨-, rfl⟩ := Prod.mk.injEq .. ▸ h
          rfl
      · split at h
        · simp at h
        · obtain ⟨-, rfl⟩ := Prod.mk.injEq .. ▸ h
          rfl

/-- Witness for C8: a freshly constructed engine rejects every search. -/
theorem C8_invalid_execute_zero_witness :
    (execute iswDefault [104, 105] 5 initEngine.nfa 0 2).ret = 0 :=
  C8_invalid_execute_zero.1 iswDefault [104, 105] 5 initEngine.nfa 0 2
    C8_invalid_execute_zero.2.1

/-- Claim C3 amended: a closure character that follows a `CLO` or `LCLO`
opcode (the compiled form of `*` and `+`) is skipped by the equivalence
rule, leaving the compiler state unchanged; so `a**` and `a++` compile to
the same programs as `a*` and `a+`.  (After a `?` the previous opcode is
`CLQ`, which is not covered by the rule — see the counterexample.) -/
theorem C3_amended_closure_skip :
    (∀ (isw : Nat → Bool) (caseSensitive posix : Bool) (fuel : Nat)
       (rest : List Nat) (st : CSt) (c : Nat),
       (c = 42 ∨ c = 43 ∨ c = 63) → st.atStart = false →
       (lastOp st = .clo ∨ lastOp st = .lclo) → progSize st.prog ≤ mpMax →
       goC isw caseSensitive posix (fuel + 1) (c :: rest) st =
         goC isw caseSensitive posix fuel rest { st with atStart := false }) ∧
    doCompile iswDefault true false [97, 42, 42] =
      doCompile iswDefault true false [97, 42] ∧
    doCompile iswDefault true false [97, 43, 43] =
      doCompile iswDefault true false [97, 43] := by
  refine ⟨?_, rfl, rfl⟩
  intro isw caseSensitive posix fuel rest st c hc hstart hlast hsz
  have hsz' : ¬ progSize st.prog > mpMax := by omega
  rcases hc with rfl | rfl | rfl <;>
    simp [goC, hsz', hstart, hlast]

/-- Witness for the amended C3 statement: a concrete state whose previous
opcode is a `CLO`. -/
theorem C3_amended_closure_skip_witness :
    goC iswDefault true false 1 [42]
      ⟨[.clo, .chr 97, .stop], 0, [], 1, false⟩ =
    goC iswDefault true false 0 []
      ⟨[.clo, .chr 97, .stop], 0, [], 1, false⟩ :=
  C3_amended_closure_skip.1 iswDefault true false 0 [] _ 42 (Or.inl rfl) rfl
    (Or.inl rfl) (by decide)

/-- The scan loop of `Execute` never touches the group-0 capture bounds on
a run that returns 0, for a `tagsOk` program. -/
theorem execScan_zero_group0 (isw : Nat → Bool) (txt : List Nat) (bolP endp : Int)
    (pfuel : Nat) (prog : List Instr) (htags : tagsOk prog) :
    ∀ (fuel : Nat) (lp : Int) (st : MState),
      (execScan isw txt bolP endp pfuel prog fuel lp st).ret = 0 →
      (execScan isw txt bolP endp pfuel prog fuel lp st).st.bopat 0 = st.bopat 0 ∧
      (execScan isw txt bolP endp pfuel prog fuel lp st).st.eopat 0 = st.eopat 0 := by
  intro fuel
  induction fuel with
  | zero =>
    intro lp st _
    exact ⟨rfl, rfl⟩
  | succ fuel ih =>
    intro lp st h
    simp only [execScan] at h ⊢
    by_cases hlt : lp < endp
    · rw [if_pos hlt] at h ⊢
      cases hr : (pmatch isw txt bolP endp pfuel prog lp 1 true st).res with
      | some ep =>
        rw [hr] at h
        simp at h
      | none =>
        rw [hr] at h
        obtain ⟨h1, h2⟩ := ih _ _ h
        have hpm := (pmatch_group0 isw txt bolP endp pfuel).1 prog lp 1 true st htags
        exact ⟨h1.trans hpm.1, h2.trans hpm.2⟩
    · rw [if_neg hlt] at h ⊢
      exact ⟨rfl, rfl⟩

/-- `Execute` clears all captures on entry and writes group 0 only on the
success path, so a 0 return leaves `bopat[0]` and `eopat[0]` at
`NOTFOUND`, for a `tagsOk` program. -/
theorem execute_zero_group0 (isw : Nat → Bool) (txt : List Nat) (fuel : Nat)
    (prog : List Instr) (lp0 endp : Int) (htags : tagsOk prog)
    (h0 : (execute isw txt fuel prog lp0 endp).ret = 0) :
    (execute isw txt fuel prog lp0 endp).st.bopat 0 = NOTFOUND ∧
    (execute isw txt fuel prog lp0 endp).st.eopat 0 = NOTFOUND := by
  cases hh : prog.headD Instr.stop
  case bol =>
    simp only [execute, hh] at h0 ⊢
    cases hr : (pmatch isw txt lp0 endp fuel prog lp0 1 false clearM).res with
    | some ep =>
      rw [hr] at h0
      simp at h0
    | none =>
      have hpm := (pmatch_group0 isw txt lp0 endp fuel).1 prog lp0 1 false clearM htags
      exact ⟨hpm.1, hpm.2⟩
  case eol =>
    simp only [execute, hh] at h0 ⊢
    by_cases ht : (prog.drop 1).headD Instr.stop = Instr.stop
    · rw [if_pos ht] at h0
      simp at h0
    · rw [if_neg ht]
      exact ⟨rfl, rfl⟩
  case chr c =>
    simp only [execute, hh] at h0 ⊢
    by_cases hge : findChar txt c (endp - lp0).toNat lp0 ≥ endp
    · rw [if_pos hge]
      exact ⟨rfl, rfl⟩
    · rw [if_neg hge] at h0 ⊢
      have hs := execScan_zero_group0 isw txt lp0 endp fuel prog htags
        ((endp - findChar txt c (endp - lp0).toNat lp0).toNat + 1)
        (findChar txt c (endp - lp0).toNat lp0) clearM h0
      exact ⟨hs.1, hs.2⟩
  case stop =>
    simp only [execute, hh]
    exact ⟨rfl, rfl⟩
  all_goals
    simp only [execute, hh] at h0 ⊢
  all_goals
    have hs := execScan_zero_group0 isw txt lp0 endp fuel prog htags
      ((endp - lp0).toNat + 1) lp0 clearM h0
  all_goals
    exact ⟨hs.1, hs.2⟩

/-- C9: whenever `Execute` returns 0 for a successfully compiled program,
the whole-match bounds `bopat[0]` and `eopat[0]` are both `NOTFOUND`
afterwards: `Execute` resets all captures to `NOTFOUND` on entry and
writes group 0 only on the success path. -/
theorem C9_execute_zero_group0 (isw : Nat → Bool) (caseSensitive posix : Bool)
    (cs : List Nat) (prog : List Instr)
    (hok : doCompile isw caseSensitive posix cs = .ok prog)
    (txt : List Nat) (fuel : Nat) (lp0 endp : Int)
    (h0 : (execute isw txt fuel prog lp0 endp).ret = 0) :
    (execute isw txt fuel prog lp0 endp).st.bopat 0 = NOTFOUND ∧
    (execute isw txt fuel prog lp0 endp).st.eopat 0 = NOTFOUND := by
  have htags : tagsOk prog :=
    goC_tags isw caseSensitive posix (cs.length + 1) cs ⟨[], 0, [], 1, true⟩ prog
      ⟨(fun n hn => nomatch hn), (fun n hn => nomatch hn)⟩ (fun t ht => nomatch ht)
      (le_refl 1) hok
  exact execute_zero_group0 isw txt fuel prog lp0 endp htags h0

/-- Witness for C9: the pattern `a` fails on the text `b`, and both
group-0 bounds read back as `NOTFOUND`. -/
theorem C9_execute_zero_group0_witness :
    (execute iswDefault [98] 2 [Instr.chr 97, Instr.stop] 0 1).st.bopat 0
      = NOTFOUND ∧
    (execute iswDefault [98] 2 [Instr.chr 97, Instr.stop] 0 1).st.eopat 0
      = NOTFOUND :=
  C9_execute_zero_group0 iswDefault true false [97] [Instr.chr 97, Instr.stop]
    (by rfl) [98] 2 0 1 (by rfl)

end NP2
